import Mathlib

/-!
# ruby-cryptopp: the digest / HMAC binding (ext/digests.cpp)

A shallow embedding of the functions of `ext/digests.cpp` and of the class
declarations of `ext/jmd5.h`, followed by theorems about them.

Conventions of the embedding.

* A Ruby `String` (and a C++ `std::string`) is a list of bytes.
* A function of the binding that can `rb_raise` returns a pair: the outcome
  (`Except RubyError _`) and the C++ object as it stands afterwards, so that
  what a failing call has already done to the object stays visible.
* The `.def` tables, the `IS_HMAC` / `IS_NON_HMAC` macros and the member
  functions of `JHash` / `JHMAC` are declared in headers that are not part
  of the sources at hand; they are parameters of the embedding (`Build`,
  `JClass`) or are modelled from the specification, and are marked so.
-/

namespace CryptoPP

/-! ## Bytes and the hex codec -/

/-- One byte of a string. -/
abbrev Byte := Fin 256

/-- The contents of a Ruby String or of a C++ std::string. -/
abbrev Bytes := List Byte

/-- The lowercase hex digit of a value below 16. -/
def hexDigit (n : Nat) : Byte :=
  if n < 10 then Fin.ofNat (48 + n) else Fin.ofNat (87 + n)

/-- Modelled from the spec: the Codec operation toHex (the hex encoder used by
JHash is not in the sources at hand). Lowercase, two hex characters per byte. -/
def toHex : Bytes → Bytes
  | [] => []
  | b :: bs => hexDigit (b.val / 16) :: hexDigit (b.val % 16) :: toHex bs

/-- The value of a hex character, either case; none for any other byte. -/
def hexVal (c : Byte) : Option Nat :=
  if 48 ≤ c.val ∧ c.val ≤ 57 then some (c.val - 48)
  else if 97 ≤ c.val ∧ c.val ≤ 102 then some (c.val - 87)
  else if 65 ≤ c.val ∧ c.val ≤ 70 then some (c.val - 55)
  else none

/-- What Ruby raises, or what escapes the binding. -/
inductive ErrorText where
  /-- "expected %d bytes, got %d" -/
  | expected_bytes_got (expected got : Nat)
  /-- "can't set both A and B in options" -/
  | cant_set_both (a b : String)
  /-- "the requested algorithm has been disabled" -/
  | algorithm_disabled
  /-- "invalid digest algorithm" -/
  | invalid_digest_algorithm
  /-- "invalid HMAC algorithm" -/
  | invalid_HMAC_algorithm
  /-- "could not find a valid digest type" -/
  | no_valid_digest_type
  /-- "tried to set a key length of %d but %d was used" -/
  | key_length_tried_used (tried used : Nat)
  /-- "Crypto++ exception: " followed by the message of the library -/
  | cryptopp_exception (what : String)
  /-- "wrong number of arguments (%d for N)" -/
  | wrong_number_of_arguments (argc expected : Nat)
  /-- "wrong argument types (expected a String or a Hash" -/
  | wrong_argument_types
  deriving DecidableEq, Repr

/-- The exceptions a call of the binding can end with. -/
inductive RubyError where
  /-- rb_raise(rb_eCryptoPP_Error, ...) -/
  | CryptoPP_Error (what : ErrorText)
  /-- rb_raise(rb_eArgError, ...), also raised by rb_scan_args -/
  | ArgError (what : ErrorText)
  /-- Check_Type, NUM2LONG, NUM2INT on a value of another type -/
  | TypeError
  /-- NUM2UINT on a value that does not fit an unsigned int -/
  | RangeError
  /-- The spec error of fromHex on malformed hex input -/
  | InvalidEncoding
  /-- std::bad_typeid from typeid(*hash) on a null pointer; it is not a
  CryptoPP::Exception and no handler of the binding catches it -/
  | bad_typeid
  /-- The exception a read of the Ruby IO object raises -/
  | IOError
  /-- A member call through the null pointer that digest_factory returns when
  no case label of its switch matches the long -/
  | null_pointer
  deriving DecidableEq, Repr

deriving instance DecidableEq for Except

/-- Modelled from the spec: the Codec operation fromHex (the hex decoder used
by JHash is not in the sources at hand). Fails with InvalidEncoding on a
string of odd length or with a character that is no hex digit. -/
def fromHex : Bytes → Except RubyError Bytes
  | [] => .ok []
  | [_] => .error .InvalidEncoding
  | c1 :: c2 :: rest =>
    match hexVal c1, hexVal c2 with
    | some hi, some lo =>
      match fromHex rest with
      | .ok bs => .ok (Fin.ofNat (16 * hi + lo) :: bs)
      | .error e => .error e
    | _, _ => .error .InvalidEncoding

/-- Ruby String#downcase on one byte: the ASCII capitals move to lowercase,
every other byte stays. -/
def downcaseByte (b : Byte) : Byte :=
  if 65 ≤ b.val ∧ b.val ≤ 90 then Fin.ofNat (b.val + 32) else b

/-- Ruby String#downcase. -/
def downcase (s : Bytes) : Bytes := s.map downcaseByte

/-- Ruby rb_str_cmp(a, b) == 0: same length and same bytes. -/
def rb_str_cmp_eq (a b : Bytes) : Bool := decide (a = b)

/-! ## Ruby values -/

/-- The Ruby values the binding is handed. A Hash is keyed by symbols, written
here by their names; its entries are kept in a list and rb_hash_aref takes
the first entry of a key. -/
inductive VALUE where
  | nil
  | str (s : Bytes)
  | fixnum (n : Int)
  | hash (entries : List (String × VALUE))

/-- NIL_P. -/
def NIL_P : VALUE → Bool
  | .nil => true
  | _ => false

/-- The lookup of rb_hash_aref in the entries of a Hash without default. -/
def aref : List (String × VALUE) → String → VALUE
  | [], _ => .nil
  | (k, v) :: rest, key => if k = key then v else aref rest key

/-- NUM2LONG and NUM2INT on the values modelled here: an Integer converts,
anything else is a TypeError. The width limits of the C types are not
modelled; algorithm identifiers are small enumerators. -/
def NUM2LONG : VALUE → Except RubyError Int
  | .fixnum n => .ok n
  | _ => .error .TypeError

/-! ## The C++ object model -/

/-- What one concrete class (JMD5, JMD5_HMAC, ...) fixes. The templates
JHash_Template and JHMAC_Template and the Crypto++ transforms behind them are
not in the sources at hand, so what they supply is a field here. -/
structure JClass where
  /-- The identity of the class, as compared by typeid. -/
  typeid : String
  /-- static string getHashName() -/
  getHashName : String
  /-- The enumerator given as second template argument. -/
  getHashType : Int
  /-- The value getDigestSize() returns. -/
  getDigestSize : Nat
  /-- What the constructor throws as a Crypto++ Exception, if anything. -/
  ctorThrows : Option String
  /-- The external transform: key, key length and message to digest. A plain
  hash or checksum ignores the first two. -/
  transform : Bytes → Nat → Bytes → Bytes
  /-- The key length the primitive really uses when asked for one. -/
  validKeylength : Nat → Nat

/-- A JHash object; the last two fields are the JHMAC part and are only
looked at through the JHMAC member functions. -/
structure JHash where
  klass : JClass
  itsPlaintext : Bytes
  itsHashtext : Bytes
  itsKey : Bytes
  itsKeylength : Nat

namespace JHash

/-- The virtual getDigestSize(). -/
def getDigestSize (h : JHash) : Nat := h.klass.getDigestSize

/-- The virtual getHashType(). -/
def getHashType (h : JHash) : Int := h.klass.getHashType

/-- Modelled from the spec: JHash::getHashtext(hex) (jhash.h is not in the
sources at hand). Returns the current hashtext as it is, hex encoded when
the flag is set. -/
def getHashtext (h : JHash) (hex : Bool) : Bytes :=
  if hex then toHex h.itsHashtext else h.itsHashtext

/-- Modelled from the spec: JHash::getPlaintext(hex) (jhash.h is not in the
sources at hand). Returns the current plaintext, encoded per flag. -/
def getPlaintext (h : JHash) (hex : Bool) : Bytes :=
  if hex then toHex h.itsPlaintext else h.itsPlaintext

/-- Modelled from the spec: JHash::setPlaintext(plaintext, hex) (jhash.h is
not in the sources at hand). Decodes if hex, replaces the plaintext, does not
touch the hashtext; malformed hex fails and changes nothing. -/
def setPlaintext (h : JHash) (plaintext : Bytes) (hex : Bool) : Except RubyError JHash :=
  if hex then
    match fromHex plaintext with
    | .ok b => .ok { h with itsPlaintext := b }
    | .error e => .error e
  else .ok { h with itsPlaintext := plaintext }

/-- Modelled from the spec: JHash::setHashtext(hashtext, hex) (jhash.h is not
in the sources at hand). Decodes if hex and overwrites the hashtext directly,
without recomputation. -/
def setHashtext (h : JHash) (hashtext : Bytes) (hex : Bool) : Except RubyError JHash :=
  if hex then
    match fromHex hashtext with
    | .ok b => .ok { h with itsHashtext := b }
    | .error e => .error e
  else .ok { h with itsHashtext := hashtext }

/-- Modelled from the spec: JHash::hash() (jhash.h is not in the sources at
hand). Runs the transform of the class over the full current plaintext and
overwrites the hashtext with the result. -/
def hash (h : JHash) : JHash :=
  { h with itsHashtext := h.klass.transform h.itsKey h.itsKeylength h.itsPlaintext }

end JHash

/-! ## Instance methods of Digest -/

/-- rb_digest_equals (digests.cpp 470-494). -/
def rb_digest_equals (self : JHash) (compare : VALUE) : Except RubyError Bool × JHash :=
  match compare with
  | .str c =>
    if c.length = self.getDigestSize / 2 then
      let str1 := self.getHashtext false
      let str2 := c
      (.ok (rb_str_cmp_eq str1 str2), self)
    else if c.length = self.getDigestSize then
      let str1 := self.getHashtext true
      let str2 := downcase c
      (.ok (rb_str_cmp_eq str1 str2), self)
    else
      (.error (.CryptoPP_Error (.expected_bytes_got (self.getDigestSize / 2) c.length)), self)
  | _ => (.error .TypeError, self)

/-- The static helper digest_plaintext_eq (digests.cpp 359-366). -/
def digest_plaintext_eq (self : JHash) (plaintext : VALUE) (hex : Bool) :
    Except RubyError Bytes × JHash :=
  match plaintext with
  | .str s =>
    match self.setPlaintext s hex with
    | .ok h => (.ok (h.getPlaintext hex), h)
    | .error e => (.error e, self)
  | _ => (.error .TypeError, self)

/-- The static helper digest_calculate (digests.cpp 394-400). -/
def digest_calculate (self : JHash) (hex : Bool) : Bytes × JHash :=
  let h := self.hash
  (h.getHashtext hex, h)

/-- The static helper digest_digest (digests.cpp 305-310). -/
def digest_digest (self : JHash) (hex : Bool) : Bytes := self.getHashtext hex

/-- The static helper digest_digest_eq (digests.cpp 422-429). -/
def digest_digest_eq (self : JHash) (digest : VALUE) (hex : Bool) :
    Except RubyError Bytes × JHash :=
  match digest with
  | .str s =>
    match self.setHashtext s hex with
    | .ok h => (.ok (h.getHashtext hex), h)
    | .error e => (.error e, self)
  | _ => (.error .TypeError, self)

/-- Drops the value a helper returns and keeps outcome and object. -/
def discard {α : Type} (r : Except RubyError α × JHash) : Except RubyError Unit × JHash :=
  match r with
  | (.ok _, h) => (.ok (), h)
  | (.error e, h) => (.error e, h)

/-- The first block of digest_options (digests.cpp 81-93). -/
def digest_options_plaintext (self : JHash) (o : List (String × VALUE)) :
    Except RubyError Unit × JHash :=
  let plaintext := aref o "plaintext"
  let plaintext_hex := aref o "plaintext_hex"
  if !NIL_P plaintext && !NIL_P plaintext_hex then
    (.error (.CryptoPP_Error (.cant_set_both "plaintext" "plaintext_hex")), self)
  else if !NIL_P plaintext then
    discard (digest_plaintext_eq self plaintext false)
  else if !NIL_P plaintext_hex then
    discard (digest_plaintext_eq self plaintext_hex true)
  else (.ok (), self)

/-- The second block of digest_options (digests.cpp 95-107). -/
def digest_options_digest (self : JHash) (o : List (String × VALUE)) :
    Except RubyError Unit × JHash :=
  let digest := aref o "digest"
  let digest_hex := aref o "digest_hex"
  if !NIL_P digest && !NIL_P digest_hex then
    (.error (.CryptoPP_Error (.cant_set_both "digest" "digest_hex")), self)
  else if !NIL_P digest then
    discard (digest_digest_eq self digest false)
  else if !NIL_P digest_hex then
    discard (digest_digest_eq self digest_hex true)
  else (.ok (), self)

/-- The static helper digest_options (digests.cpp 77-108): Check_Type, then
the plaintext pair, then the digest pair. -/
def digest_options (self : JHash) (options : VALUE) : Except RubyError Unit × JHash :=
  match options with
  | .hash o =>
    match digest_options_plaintext self o with
    | (.error e, h) => (.error e, h)
    | (.ok _, h) => digest_options_digest h o
  | _ => (.error .TypeError, self)

/-! ## HMAC -/

namespace JHMAC

/-- Modelled from the spec: JHMAC::setKey(key, hex) (jhmac.h is not in the
sources at hand). Decodes if hex, stores the key, does not recompute. -/
def setKey (h : JHash) (key : Bytes) (hex : Bool) : Except RubyError JHash :=
  if hex then
    match fromHex key with
    | .ok b => .ok { h with itsKey := b }
    | .error e => .error e
  else .ok { h with itsKey := key }

/-- Modelled from the spec: JHMAC::getKey(hex) (jhmac.h is not in the sources
at hand). Returns the stored key, hex encoded when the flag is set. -/
def getKey (h : JHash) (hex : Bool) : Bytes :=
  if hex then toHex h.itsKey else h.itsKey

/-- Modelled from the spec: JHMAC::setKeylength (jhmac.h is not in the
sources at hand). Asks the primitive for this many key bytes; the primitive
answers with the length it really uses, and that one is kept. -/
def setKeylength (h : JHash) (length : Nat) : JHash :=
  { h with itsKeylength := h.klass.validKeylength length }

/-- Modelled from the spec: JHMAC::getKeylength (jhmac.h is not in the
sources at hand). The effective key length. -/
def getKeylength (h : JHash) : Nat := h.itsKeylength

end JHMAC

/-- NUM2UINT on the lengths an unsigned int holds. How Ruby converts an
Integer outside that range depends on its version and is not modelled: a
RangeError stands for it, and no theorem below looks at that case. -/
def NUM2UINT : VALUE → Except RubyError Nat
  | .fixnum n => if 0 ≤ n ∧ n < 4294967296 then .ok n.toNat else .error .RangeError
  | _ => .error .TypeError

/-- The static helper digest_hmac_key_eq (digests.cpp 881-888). -/
def digest_hmac_key_eq (self : JHash) (key : VALUE) (hex : Bool) :
    Except RubyError Bytes × JHash :=
  match key with
  | .str s =>
    match JHMAC.setKey self s hex with
    | .ok h => (.ok (JHMAC.getKey h hex), h)
    | .error e => (.error e, self)
  | _ => (.error .TypeError, self)

/-- The static helper digest_hmac_key (digests.cpp 910-915). -/
def digest_hmac_key (self : JHash) (hex : Bool) : Bytes := JHMAC.getKey self hex

/-- rb_digest_hmac_key (digests.cpp 920-924). -/
def rb_digest_hmac_key (self : JHash) : Bytes :=
  let retval := digest_hmac_key self false
  retval

/-- rb_digest_hmac_key_hex (digests.cpp 929-933); the flag it passes is
false, as in the source. -/
def rb_digest_hmac_key_hex (self : JHash) : Bytes :=
  let retval := digest_hmac_key self false
  retval

/-- rb_digest_hmac_key_length_eq (digests.cpp 942-954). -/
def rb_digest_hmac_key_length_eq (self : JHash) (l : VALUE) : Except RubyError VALUE × JHash :=
  match NUM2UINT l with
  | .error e => (.error e, self)
  | .ok length =>
    let hash := JHMAC.setKeylength self length
    if JHMAC.getKeylength hash ≠ length then
      (.error (.CryptoPP_Error (.key_length_tried_used length (JHMAC.getKeylength hash))), hash)
    else
      (.ok l, hash)

/-- rb_digest_hmac_key_length (digests.cpp 966-971). -/
def rb_digest_hmac_key_length (self : JHash) : Nat := JHMAC.getKeylength self

/-- The key block of digest_hmac_options (digests.cpp 765-777). -/
def digest_hmac_options_key (self : JHash) (o : List (String × VALUE)) :
    Except RubyError Unit × JHash :=
  let key := aref o "key"
  let key_hex := aref o "key_hex"
  if !NIL_P key && !NIL_P key_hex then
    (.error (.CryptoPP_Error (.cant_set_both "key" "key_hex")), self)
  else if !NIL_P key then
    discard (digest_hmac_key_eq self key false)
  else if !NIL_P key_hex then
    discard (digest_hmac_key_eq self key_hex true)
  else (.ok (), self)

/-- The key_length block of digest_hmac_options (digests.cpp 779-784). -/
def digest_hmac_options_key_length (self : JHash) (o : List (String × VALUE)) :
    Except RubyError Unit × JHash :=
  let key_length := aref o "key_length"
  if !NIL_P key_length then
    discard (rb_digest_hmac_key_length_eq self key_length)
  else (.ok (), self)

/-- The static helper digest_hmac_options (digests.cpp 761-785). -/
def digest_hmac_options (self : JHash) (options : VALUE) : Except RubyError Unit × JHash :=
  match digest_options self options with
  | (.error e, h) => (.error e, h)
  | (.ok _, h) =>
    match options with
    | .hash o =>
      match digest_hmac_options_key h o with
      | (.error e, h1) => (.error e, h1)
      | (.ok _, h1) => digest_hmac_options_key_length h1 o
    | _ => (.error .TypeError, h)

/-! ## The algorithm tables and the factories -/

/-- The values of the C type int, the type under enum HashEnum. -/
def isInt (a : Int) : Bool := decide (-2147483648 ≤ a ∧ a < 2147483648)

/-- The conversion (enum HashEnum) algorithm of a long (digests.cpp 114): a
value of int stays, a wider value wraps into the range of int. -/
def HashEnum_cast (a : Int) : Int := (a + 2147483648) % 4294967296 - 2147483648

/-- One line X_ALGORITHM(klass, r, c) of a .def file, as the macros of
digests.cpp see it: the token r, the value of the enumerator made of it
(r_CHECKSUM, r_HASH or r_HMAC) and the C++ class c. -/
structure AlgorithmDef where
  r : String
  id : Int
  c : JClass
  /-- An enumerator of enum HashEnum is a value of the C type int. -/
  id_int : isInt id = true := by decide

/-- What the headers that are not in the sources at hand fix for one build:
the lines of checksums.def, hashes.def and hmacs.def that the build
configuration leaves in, the enumerators declared by enum HashEnum, and the
macros IS_HMAC and IS_NON_HMAC. -/
structure Build where
  checksums : List AlgorithmDef
  hashes : List AlgorithmDef
  hmacs : List AlgorithmDef
  HashEnum : List Int
  IS_HMAC : Int → Bool
  IS_NON_HMAC : Int → Bool

/-- The first line of a table whose case label is the given value. -/
def findCase (table : List AlgorithmDef) (algorithm : Int) : Option AlgorithmDef :=
  table.find? (fun d => decide (d.id = algorithm))

/-- The switch over the three tables, in the order the macros expand:
checksums, hashes, hmacs. -/
def Build.switch (b : Build) (algorithm : Int) : Option AlgorithmDef :=
  match findCase b.checksums algorithm with
  | some d => some d
  | none =>
    match findCase b.hashes algorithm with
    | some d => some d
    | none => findCase b.hmacs algorithm

/-- The static helper hash_enabled (digests.cpp 53-73): true on every case
label the three tables give, false otherwise. -/
def hash_enabled (b : Build) (hash : Int) : Bool :=
  match b.switch hash with
  | some _ => true
  | none => false

/-- The expression new c: the constructor with its default argument.
Modelled from the spec: the state Empty (the constructors are in jhash_t.h
and jhmac_t.h, not in the sources at hand): an object starts with empty
plaintext and hashtext, and with no key and the key length 0. The error is
the message of the Crypto++ Exception the constructor throws. -/
def JClass.new (c : JClass) : Except String JHash :=
  match c.ctorThrows with
  | some what => .error what
  | none => .ok ⟨c, [], [], [], 0⟩

/-- What a C++ function of the binding throws. -/
inductive Thrown where
  /-- A CryptoPP::Exception (JException is one), with GetWhat() -/
  | Exception (what : ErrorText)
  /-- The exception typeid(*p) throws on a null pointer -/
  | bad_typeid
  deriving DecidableEq, Repr

/-- The static helper digest_factory (digests.cpp 112-144); none is NULL. The
test of line 114 is on the argument converted to enum HashEnum, the switch
of line 119 on the long itself. -/
def digest_factory (b : Build) (algorithm : Int) : Except Thrown (Option JHash) :=
  if !hash_enabled b (HashEnum_cast algorithm) then
    .error (.Exception .algorithm_disabled)
  else
    match b.switch algorithm with
    | some d =>
      match d.c.new with
      | .ok h => .ok (some h)
      | .error what => .error (.Exception (.cryptopp_exception what))
    | none => .ok none

/-- rb_module_digest_enabled (digests.cpp 627-635). -/
def rb_module_digest_enabled (b : Build) (d : VALUE) : Except RubyError Bool :=
  match NUM2LONG d with
  | .error e => .error e
  | .ok hash => .ok (hash_enabled b hash)

/-- rb_module_digest_name (digests.cpp 639-664): the default label raises,
every case label of the three tables returns getHashName() of its class. -/
def rb_module_digest_name (b : Build) (h : VALUE) : Except RubyError String :=
  match NUM2LONG h with
  | .error e => .error e
  | .ok a =>
    match b.switch a with
    | some d => .ok d.c.getHashName
    | none => .error (.CryptoPP_Error .no_valid_digest_type)

/-- rb_module_digest_list (digests.cpp 741-757). -/
def rb_module_digest_list (b : Build) : List Int :=
  b.checksums.map (fun d => d.id) ++ b.hashes.map (fun d => d.id)

/-- rb_module_hmac_list (digests.cpp 1030-1041). -/
def rb_module_hmac_list (b : Build) : List Int :=
  b.hmacs.map (fun d => d.id)

/-! ## The classes of jmd5.h -/

/-- The constant Weak::MD5::DIGESTSIZE of Crypto++: an MD5 digest has 16
bytes. -/
def Weak_MD5_DIGESTSIZE : Nat := 16

/-- Modelled from the spec: getDigestSize() of JHash_Template (jhash_t.h is
not in the sources at hand). The spec takes a candidate of half this size as
binary and a candidate of this size as hex (4.4) and takes the 16 byte form
of an MD5 digest as binary and the 32 character form as hex (8), and so do
the comment and the message "expected getDigestSize()/2 bytes" of
rb_digest_equals (digests.cpp 465-468 and 485): the value is twice the
number of digest bytes of the transform. Every other member is taken from
the second argument. -/
def JHash_Template (DIGESTSIZE : Nat) (rest : JClass) : JClass :=
  { rest with getDigestSize := 2 * DIGESTSIZE }

/-- The class JMD5 (jmd5.h 38-44) over its base JHash_Template of Weak::MD5
and MD5_HASH, which is given as the argument. -/
def JMD5 (base : JClass) : JClass :=
  { base with typeid := "JMD5", getHashName := "MD5" }

/-- The class JMD5_HMAC (jmd5.h 48-54) over its base JHMAC_Template of
Weak::MD5 and MD5_HMAC, which is given as the argument. -/
def JMD5_HMAC (base : JClass) : JClass :=
  { base with typeid := "JMD5_HMAC", getHashName := "MD5-HMAC" }

/-! ## Sample data for the examples -/

/-- The message "abc". -/
def abc : Bytes := [97, 98, 99]

/-- The MD5 digest of "abc", 16 bytes: 900150983cd24fb0d6963f7d28e17f72. -/
def md5_abc : Bytes :=
  [144, 1, 80, 152, 60, 210, 79, 176, 214, 150, 63, 125, 40, 225, 127, 114]

/-- The 32 characters "900150983cd24fb0d6963f7d28e17f72". -/
def md5_abc_hex : Bytes :=
  [57, 48, 48, 49, 53, 48, 57, 56, 51, 99, 100, 50, 52, 102, 98, 48,
   100, 54, 57, 54, 51, 102, 55, 100, 50, 56, 101, 49, 55, 102, 55, 50]

/-- The 32 characters "900150983CD24FB0D6963F7D28E17F72". -/
def md5_abc_HEX : Bytes :=
  [57, 48, 48, 49, 53, 48, 57, 56, 51, 67, 68, 50, 52, 70, 66, 48,
   68, 54, 57, 54, 51, 70, 55, 68, 50, 56, 69, 49, 55, 70, 55, 50]

/-- A stand-in for the external MD5 transform in the examples: it knows the
one answer the examples use and is never asked for another. -/
def md5_known_answer (_key : Bytes) (_keylength : Nat) (message : Bytes) : Bytes :=
  if message = abc then md5_abc else []

/-- A sample base class for JMD5: the value of getDigestSize() is left open,
the enumerator MD5_HASH is taken to be 13. -/
def sample_MD5_base (digestSize : Nat) : JClass :=
  ⟨"JHash_Template<Weak::MD5, MD5_HASH>", "", 13, digestSize, none, md5_known_answer,
    fun n => n⟩

/-- A JMD5 object holding "abc" and its digest, for a given value of
getDigestSize(). -/
def md5_object (digestSize : Nat) : JHash :=
  ⟨JMD5 (sample_MD5_base digestSize), abc, md5_abc, [], 0⟩

/-- The Adler-32 checksum, four bytes, high byte first: the one transform
that is small enough to write out for the sample checksum class. -/
def adler32 (message : Bytes) : Bytes :=
  let s := message.foldl
    (fun (acc : Nat × Nat) (x : Byte) =>
      let s1 := (acc.1 + x.val) % 65521
      (s1, (acc.2 + s1) % 65521))
    (1, 0)
  [Fin.ofNat (s.2 / 256), Fin.ofNat (s.2 % 256), Fin.ofNat (s.1 / 256), Fin.ofNat (s.1 % 256)]

/-- A sample checksum class; the enumerator ADLER32_CHECKSUM is taken to
be 1. -/
def sample_Adler32 : JClass :=
  ⟨"JAdler32", "Adler32", 1, 8, none, fun _ _ message => adler32 message, fun n => n⟩

/-- A stand-in for the external HMAC-MD5 transform in the examples: it knows
the answer of RFC 2202, test case 2 (key "Jefe", message "what do ya want
for nothing?") and is never asked for another. -/
def hmac_md5_known_answer (key : Bytes) (_keylength : Nat) (message : Bytes) : Bytes :=
  if key = [74, 101, 102, 101] ∧
      message = [119, 104, 97, 116, 32, 100, 111, 32, 121, 97, 32, 119, 97, 110, 116, 32,
        102, 111, 114, 32, 110, 111, 116, 104, 105, 110, 103, 63] then
    [117, 12, 120, 62, 106, 176, 181, 3, 234, 168, 110, 49, 10, 93, 183, 56]
  else []

/-- A sample base class for JMD5_HMAC; the enumerator MD5_HMAC is taken to be
113, and the primitive takes every key length up to INT_MAX. -/
def sample_MD5_HMAC_base : JClass :=
  ⟨"JHMAC_Template<Weak::MD5, MD5_HMAC>", "", 113, 32, none, hmac_md5_known_answer,
    fun n => min n 2147483647⟩

/-- A sample build: Adler32, MD5 and the MD5 HMAC are compiled in; SHA1, whose
enumerators SHA1_HASH and SHA1_HMAC are taken to be 14 and 114, is compiled
out, so the .def files leave no line for it. Identifiers from 0 to 99 are
the checksums and hashes, identifiers from 100 to 199 the HMACs. -/
def sample_build : Build where
  checksums := [{ r := "ADLER32", id := 1, c := sample_Adler32 }]
  hashes := [{ r := "MD5", id := 13, c := JMD5 (sample_MD5_base 32) }]
  hmacs := [{ r := "MD5", id := 113, c := JMD5_HMAC sample_MD5_HMAC_base }]
  HashEnum := [1, 13, 14, 113, 114]
  IS_HMAC := fun x => decide (100 ≤ x ∧ x < 200)
  IS_NON_HMAC := fun x => decide (0 ≤ x ∧ x < 100)

/-- The claim in its own words, for one pair of options and the field they
set: with no member supplied the field keeps its old value, a binary member
is stored as it is, a hex member is stored decoded. There is no value when
both members are supplied, when a supplied member is not a String, or when
the hex member is malformed. -/
def suppliedMember (binary hexed : VALUE) (old : Bytes) : Option Bytes :=
  match binary, hexed with
  | .nil, .nil => some old
  | .str s, .nil => some s
  | .nil, .str s =>
    match fromHex s with
    | .ok bs => some bs
    | .error _ => none
  | _, _ => none

/-- Sample options in which both the plaintext pair and the digest pair have
both members. -/
def options_two_conflicts : List (String × VALUE) :=
  [("plaintext", .str abc), ("plaintext_hex", .str [54, 49]),
   ("digest", .str md5_abc), ("digest_hex", .str md5_abc_hex)]

/-- Sample options with one member of each pair: binary plaintext, hex digest,
hex key. -/
def options_one_each : List (String × VALUE) :=
  [("plaintext", .str abc), ("digest_hex", .str md5_abc_hex), ("key_hex", .str [54, 98])]

/-- A JMD5_HMAC object in its initial state. -/
def hmac_object : JHash := ⟨JMD5_HMAC sample_MD5_HMAC_base, [], [], [], 0⟩

/-- Modelled from the spec: the data model of AlgorithmIdentifier (enum
HashEnum and the macros IS_HMAC and IS_NON_HMAC are not in the sources at
hand). The identifiers fall into disjoint categories: every line of
checksums.def and hashes.def carries a non HMAC identifier, every line of
hmacs.def an HMAC identifier, no identifier is both, and no checksum shares
its identifier with a hash. -/
structure Build.WellFormed (b : Build) : Prop where
  non_hmac : ∀ d ∈ b.checksums ++ b.hashes, b.IS_NON_HMAC d.id = true
  hmac : ∀ d ∈ b.hmacs, b.IS_HMAC d.id = true
  disjoint : ∀ id : Int, ¬ (b.IS_HMAC id = true ∧ b.IS_NON_HMAC id = true)
  distinct : ∀ c ∈ b.checksums, ∀ h ∈ b.hashes, c.id ≠ h.id

/-- A JMD5_HMAC object that holds the one byte key "k". -/
def keyed_object : JHash := ⟨JMD5_HMAC sample_MD5_HMAC_base, [], [], [107], 1⟩

/-- An object of a sample class whose primitive uses 16 key bytes whatever
it is asked for. -/
def fixed_key_object : JHash :=
  ⟨⟨"JFixedKey_HMAC", "FixedKey-HMAC", 120, 32, none, hmac_md5_known_answer, fun _ => 16⟩,
    [], [], [], 16⟩

/-! ## Validation, update and the stream digester -/

/-- Modelled from the spec: JHash validate() (the member is in jhash_t.h, not
in the sources at hand). Recomputes the digest of the current plaintext
without touching the stored hashtext and tells whether the two are equal. -/
def JHash.validate (h : JHash) : Bool :=
  decide (h.klass.transform h.itsKey h.itsKeylength h.itsPlaintext = h.itsHashtext)

/-- rb_digest_validate (digests.cpp 693-703). -/
def rb_digest_validate (self : JHash) : Bool × JHash :=
  if self.validate then (true, self) else (false, self)

/-- rb_digest_update (digests.cpp 293-301). The member updatePlaintext and the
default of the flag of getHashtext(), which the source calls without an
argument, are declared in jhash.h; that header is not in the sources at
hand and the spec describes neither, so both are parameters here: what
updatePlaintext makes of the object and the string, and the default flag. -/
def rb_digest_update (updatePlaintext : JHash → Bytes → JHash) (getHashtext_default : Bool)
    (self : JHash) (plaintext : VALUE) : Except RubyError Bytes × JHash :=
  match plaintext with
  | .str p =>
    let hash := (updatePlaintext self p).hash
    (.ok (hash.getHashtext getHashtext_default), hash)
  | _ => (.error .TypeError, self)

/-- The static helper digest_plaintext (digests.cpp 332-337). -/
def digest_plaintext (self : JHash) (hex : Bool) : Bytes := self.getPlaintext hex

/-- A readable Ruby object as the digester sees it: what the successive calls
of read give until eof? holds; none is a read that raises. -/
abbrev RubyIO := List (Option Bytes)

/-- Modelled from the spec: the incremental interface of the primitive
(update and finalize), driven by the read loop of the StreamDigester. The
library is taken as correct, so the state of a running computation is
written as the bytes fed to it so far; every chunk read is fed in turn, and
a read that raises ends the loop with the error. -/
def feedChunks : RubyIO → Bytes → Except RubyError Bytes
  | [], fed => .ok fed
  | some chunk :: rest, fed => feedChunks rest (fed ++ chunk)
  | none :: _, _ => .error .IOError

/-- Modelled from the spec: the member hashRubyIO (declared in jhash_t.h, not
in the sources at hand), the operation hashStream of the StreamDigester on an
existing object: reads the source to exhaustion chunk by chunk, feeds each
chunk to the transform of the class and returns the final digest, hex encoded
when the flag is set. -/
def JHash.hashRubyIO (h : JHash) (io : RubyIO) (hex : Bool) : Except RubyError Bytes :=
  match feedChunks io [] with
  | .error e => .error e
  | .ok fed =>
    let digest := h.klass.transform h.itsKey h.itsKeylength fed
    .ok (if hex then toHex digest else digest)

/-- The static helper module_digest_io (digests.cpp 565-585); the two
arguments rb_scan_args asks for are the algorithm and the io object. -/
def module_digest_io (b : Build) (algorithm : VALUE) (io : RubyIO) (hex : Bool) :
    Except RubyError Bytes :=
  match NUM2LONG algorithm with
  | .error e => .error e
  | .ok a =>
    match digest_factory b a with
    | .error (.Exception what) => .error (.CryptoPP_Error what)
    | .error .bad_typeid => .error .bad_typeid
    | .ok none => .error .null_pointer
    | .ok (some hash) => JHash.hashRubyIO hash io hex

/-- The body of the try block of module_digest (digests.cpp 516-528).
setPlaintext and setKey are called with the string alone and store it as it
is. -/
def module_digest_body (b : Build) (a : Int) (plaintext : Bytes) (key : Option Bytes)
    (hex : Bool) : Except RubyError Bytes :=
  match digest_factory b a with
  | .error (.Exception what) => .error (.CryptoPP_Error what)
  | .error .bad_typeid => .error .bad_typeid
  | .ok none => .error .null_pointer
  | .ok (some hash) =>
    let h1 : JHash := { hash with itsPlaintext := plaintext }
    let h2 : JHash :=
      match key with
      | some k => { h1 with itsKey := k }
      | none => h1
    .ok (h2.hash.getHashtext hex)

/-- The static helper module_digest (digests.cpp 498-535). -/
def module_digest (b : Build) (argv : List VALUE) (hex : Bool) : Except RubyError Bytes :=
  match argv with
  | [] => .error (.ArgError (.wrong_number_of_arguments 0 2))
  | [_] => .error (.ArgError (.wrong_number_of_arguments 1 2))
  | algorithm :: plaintext :: rest =>
    match NUM2LONG algorithm with
    | .error e => .error e
    | .ok a =>
      if b.IS_HMAC a then
        if 1 < rest.length then
          .error (.ArgError (.wrong_number_of_arguments argv.length 2))
        else
          match plaintext, rest.head? with
          | .str p, some (.str k) => module_digest_body b a p (some k) hex
          | _, _ => .error .TypeError
      else
        if 0 < rest.length then
          .error (.ArgError (.wrong_number_of_arguments argv.length 2))
        else
          match plaintext with
          | .str p => module_digest_body b a p none hex
          | _ => .error .TypeError

/-- The claim in its own words: a string is valid hex when its length is even
and every character is a hex digit. -/
def validHex (s : Bytes) : Bool :=
  decide (s.length % 2 = 0) && s.all (fun c => (hexVal c).isSome)

/-- The message "The quick brown fox jumps over the lazy dog". -/
def fox : Bytes :=
  [84, 104, 101, 32, 113, 117, 105, 99, 107, 32, 98, 114, 111, 119, 110, 32, 102, 111, 120,
   32, 106, 117, 109, 112, 115, 32, 111, 118, 101, 114, 32, 116, 104, 101, 32, 108, 97, 122,
   121, 32, 100, 111, 103]

/-- The same message as a reader may get it, in three chunks: "The quick ",
"brown fox jumps " and "over the lazy dog". -/
def fox_chunks : List Bytes :=
  [[84, 104, 101, 32, 113, 117, 105, 99, 107, 32],
   [98, 114, 111, 119, 110, 32, 102, 111, 120, 32, 106, 117, 109, 112, 115, 32],
   [111, 118, 101, 114, 32, 116, 104, 101, 32, 108, 97, 122, 121, 32, 100, 111, 103]]

/-- Sample options with a binary plaintext and both members of the digest
pair. -/
def options_plaintext_then_conflict : List (String × VALUE) :=
  [("plaintext", .str abc), ("digest", .str md5_abc), ("digest_hex", .str md5_abc_hex)]

/-- Sample options for an HMAC with a binary plaintext, a hex digest and both
members of the key pair. -/
def options_then_key_conflict : List (String × VALUE) :=
  [("plaintext", .str abc), ("digest_hex", .str md5_abc_hex),
   ("key", .str [107]), ("key_hex", .str [54, 98])]

/-! ## Lemmas on the codec -/

theorem downcaseByte_hexDigit (n : Nat) (h : n < 16) :
    downcaseByte (hexDigit n) = hexDigit n := by
  interval_cases n <;> decide

theorem downcase_toHex (bs : Bytes) : downcase (toHex bs) = toHex bs := by
  induction bs with
  | nil => rfl
  | cons b bs ih =>
    have h1 : b.val / 16 < 16 := by omega
    have h2 : b.val % 16 < 16 := by omega
    simp only [downcase, toHex, List.map_cons, downcaseByte_hexDigit _ h1,
      downcaseByte_hexDigit _ h2, List.cons.injEq, true_and]
    exact ih

theorem downcase_length (s : Bytes) : (downcase s).length = s.length := by
  simp [downcase]

/-! ## The three branches of rb_digest_equals -/

theorem rb_digest_equals_binary (self : JHash) (c : Bytes)
    (h : c.length = self.getDigestSize / 2) :
    rb_digest_equals self (.str c)
      = (.ok (rb_str_cmp_eq (self.getHashtext false) c), self) := by
  simp only [rb_digest_equals]
  rw [if_pos h]

theorem rb_digest_equals_hex (self : JHash) (c : Bytes)
    (h1 : c.length ≠ self.getDigestSize / 2) (h2 : c.length = self.getDigestSize) :
    rb_digest_equals self (.str c)
      = (.ok (rb_str_cmp_eq (self.getHashtext true) (downcase c)), self) := by
  simp only [rb_digest_equals]
  rw [if_neg h1, if_pos h2]

theorem rb_digest_equals_other (self : JHash) (c : Bytes)
    (h1 : c.length ≠ self.getDigestSize / 2) (h2 : c.length ≠ self.getDigestSize) :
    rb_digest_equals self (.str c)
      = (.error (.CryptoPP_Error (.expected_bytes_got (self.getDigestSize / 2) c.length)),
          self) := by
  simp only [rb_digest_equals]
  rw [if_neg h1, if_neg h2]

/-! ## C1 to C3: rb_digest_equals -/

/-- C1. rb_digest_equals detects the encoding from the length of the
candidate: a candidate of getDigestSize()/2 bytes is compared as it is with
the binary hashtext; otherwise a candidate of getDigestSize() bytes is
lowercased and compared with the hex hashtext, which is lowercase already;
so two such candidates that differ only in letter case give the same
result, and that result is a boolean, not an error. -/
theorem rb_digest_equals_autodetect (self : JHash) (c : Bytes) :
    (c.length = self.getDigestSize / 2 →
      rb_digest_equals self (.str c) = (.ok (decide (c = self.itsHashtext)), self)) ∧
    (c.length ≠ self.getDigestSize / 2 → c.length = self.getDigestSize →
      rb_digest_equals self (.str c)
        = (.ok (decide (downcase c = toHex self.itsHashtext)), self)) ∧
    downcase (toHex self.itsHashtext) = toHex self.itsHashtext ∧
    (∀ c2 : Bytes, c.length ≠ self.getDigestSize / 2 → c.length = self.getDigestSize →
      downcase c2 = downcase c →
      rb_digest_equals self (.str c2) = rb_digest_equals self (.str c) ∧
      ∃ r : Bool, (rb_digest_equals self (.str c)).1 = .ok r) := by
  refine ⟨?_, ?_, downcase_toHex _, ?_⟩
  · intro h
    rw [rb_digest_equals_binary self c h]
    simp only [rb_str_cmp_eq, JHash.getHashtext, Bool.false_eq_true, if_false, eq_comm]
  · intro h1 h2
    rw [rb_digest_equals_hex self c h1 h2]
    simp only [rb_str_cmp_eq, JHash.getHashtext, if_true, eq_comm]
  · intro c2 h1 h2 hc
    have hl : c2.length = c.length := by
      rw [← downcase_length c2, hc, downcase_length]
    refine ⟨?_, ?_⟩
    · rw [rb_digest_equals_hex self c h1 h2,
        rb_digest_equals_hex self c2 (hl ▸ h1) (hl ▸ h2), hc]
    · exact ⟨_, by rw [rb_digest_equals_hex self c h1 h2]⟩

/-- C1, at an instance: the JMD5 object with getDigestSize() 32 and the
uppercase and lowercase hex forms of its hashtext. -/
theorem rb_digest_equals_autodetect_witness :
    md5_abc_hex.length ≠ (md5_object 32).getDigestSize / 2 ∧
    md5_abc_hex.length = (md5_object 32).getDigestSize ∧
    downcase md5_abc_HEX = downcase md5_abc_hex ∧
    rb_digest_equals (md5_object 32) (.str md5_abc_HEX)
      = rb_digest_equals (md5_object 32) (.str md5_abc_hex) :=
  ⟨by decide, by decide, by decide,
    ((rb_digest_equals_autodetect (md5_object 32) md5_abc_hex).2.2.2 md5_abc_HEX
      (by decide) (by decide) (by decide)).1⟩

/-- C2. For an MD5 digest object, that is an object of the class JMD5 over
JHash_Template with the 16 digest bytes of MD5, whose hashtext is the MD5
digest of "abc", rb_digest_equals is true on the 16 byte binary form, on the
lowercase and on the uppercase 32 character hex form, and raises "expected
16 bytes, got 10" on every candidate of 10 bytes; the object is the same
after each call. -/
theorem rb_digest_equals_md5_abc (self : JHash) (rest : JClass)
    (hk : self.klass = JMD5 (JHash_Template Weak_MD5_DIGESTSIZE rest))
    (ht : self.itsHashtext = md5_abc) :
    rb_digest_equals self (.str md5_abc) = (.ok true, self) ∧
    rb_digest_equals self (.str md5_abc_hex) = (.ok true, self) ∧
    rb_digest_equals self (.str md5_abc_HEX) = (.ok true, self) ∧
    (∀ c : Bytes, c.length = 10 →
      rb_digest_equals self (.str c)
        = (.error (.CryptoPP_Error (.expected_bytes_got 16 10)), self)) := by
  have hs : self.getDigestSize = 32 := by
    simp [JHash.getDigestSize, hk, JMD5, JHash_Template, Weak_MD5_DIGESTSIZE]
  have e1 : md5_abc.length = 16 := rfl
  have e2 : md5_abc_hex.length = 32 := rfl
  have e3 : md5_abc_HEX.length = 32 := rfl
  have t1 : toHex md5_abc = md5_abc_hex := by decide
  have t2 : downcase md5_abc_hex = md5_abc_hex := by decide
  have t3 : downcase md5_abc_HEX = md5_abc_hex := by decide
  refine ⟨?_, ?_, ?_, ?_⟩
  · rw [rb_digest_equals_binary self md5_abc (by rw [hs, e1])]
    simp [ht, JHash.getHashtext, rb_str_cmp_eq]
  · rw [rb_digest_equals_hex self md5_abc_hex (by rw [hs, e2]; decide) (by rw [hs, e2])]
    simp [ht, JHash.getHashtext, rb_str_cmp_eq, t1, t2]
  · rw [rb_digest_equals_hex self md5_abc_HEX (by rw [hs, e3]; decide) (by rw [hs, e3])]
    simp [ht, JHash.getHashtext, rb_str_cmp_eq, t1, t3]
  · intro c hc
    rw [rb_digest_equals_other self c (by rw [hs, hc]; decide) (by rw [hs, hc]; decide)]
    simp [hs, hc]

/-- C2 at the sample JMD5 object, whose class is JMD5 over the template with
16 digest bytes. -/
theorem rb_digest_equals_md5_abc_witness :
    (md5_object 32).klass = JMD5 (JHash_Template Weak_MD5_DIGESTSIZE (sample_MD5_base 32)) ∧
    (md5_object 32).itsHashtext = md5_abc ∧
    rb_digest_equals (md5_object 32) (.str md5_abc) = (.ok true, md5_object 32) ∧
    rb_digest_equals (md5_object 32) (.str md5_abc_HEX) = (.ok true, md5_object 32) :=
  ⟨rfl, rfl,
   (rb_digest_equals_md5_abc (md5_object 32) (sample_MD5_base 32) rfl rfl).1,
   (rb_digest_equals_md5_abc (md5_object 32) (sample_MD5_base 32) rfl rfl).2.2.1⟩

/-- C3. rb_digest_equals raises "expected N bytes, got M" exactly when the
length of the candidate is neither getDigestSize()/2 nor getDigestSize();
it raises nothing else on a String, an error carries no result of a
comparison, and the object is the same after the call in every case. -/
theorem rb_digest_equals_length_mismatch (self : JHash) (c : Bytes) :
    ((rb_digest_equals self (.str c)).1
        = .error (.CryptoPP_Error (.expected_bytes_got (self.getDigestSize / 2) c.length))
      ↔ (c.length ≠ self.getDigestSize / 2 ∧ c.length ≠ self.getDigestSize)) ∧
    (∀ e : RubyError, (rb_digest_equals self (.str c)).1 = .error e →
      e = .CryptoPP_Error (.expected_bytes_got (self.getDigestSize / 2) c.length)) ∧
    ((∃ r : Bool, (rb_digest_equals self (.str c)).1 = .ok r)
      ↔ (c.length = self.getDigestSize / 2 ∨ c.length = self.getDigestSize)) ∧
    (rb_digest_equals self (.str c)).2 = self := by
  by_cases h1 : c.length = self.getDigestSize / 2
  · rw [rb_digest_equals_binary self c h1]
    simp [h1]
  · by_cases h2 : c.length = self.getDigestSize
    · rw [rb_digest_equals_hex self c h1 h2]
      simp [h2]
    · rw [rb_digest_equals_other self c h1 h2]
      simp [h1, h2]

/-! ## C4: the factories -/

theorem findCase_some {table : List AlgorithmDef} {id : Int} {d : AlgorithmDef}
    (h : findCase table id = some d) : d ∈ table ∧ d.id = id := by
  unfold findCase at h
  exact ⟨List.mem_of_find?_eq_some h, by simpa using List.find?_some h⟩

theorem switch_some {b : Build} {id : Int} {d : AlgorithmDef} (h : b.switch id = some d) :
    (d ∈ b.checksums ∨ d ∈ b.hashes ∨ d ∈ b.hmacs) ∧ d.id = id := by
  unfold Build.switch at h
  cases h1 : findCase b.checksums id with
  | some d1 =>
    rw [h1] at h
    cases h
    exact ⟨Or.inl (findCase_some h1).1, (findCase_some h1).2⟩
  | none =>
    rw [h1] at h
    cases h2 : findCase b.hashes id with
    | some d2 =>
      rw [h2] at h
      cases h
      exact ⟨Or.inr (Or.inl (findCase_some h2).1), (findCase_some h2).2⟩
    | none =>
      rw [h2] at h
      exact ⟨Or.inr (Or.inr (findCase_some h).1), (findCase_some h).2⟩

theorem HashEnum_cast_of_int (a : Int) (h : isInt a = true) : HashEnum_cast a = a := by
  simp only [isInt, decide_eq_true_eq] at h
  unfold HashEnum_cast
  omega

theorem switch_cast {b : Build} {id : Int} {d : AlgorithmDef} (hs : b.switch id = some d) :
    HashEnum_cast id = id := by
  have h := (switch_some hs).2
  rw [← h]
  exact HashEnum_cast_of_int d.id d.id_int

theorem digest_factory_switch (b : Build) (id : Int) (d : AlgorithmDef)
    (hs : b.switch id = some d) :
    digest_factory b id
      = match d.c.new with
        | .ok h => .ok (some h)
        | .error what => .error (.Exception (.cryptopp_exception what)) := by
  have he : hash_enabled b (HashEnum_cast id) = true := by
    rw [switch_cast hs]
    simp [hash_enabled, hs]
  simp [digest_factory, he, hs]

theorem fromHex_error : ∀ (s : Bytes) (e : RubyError),
    fromHex s = .error e → e = .InvalidEncoding
  | [], e, h => by simp [fromHex] at h
  | [_], e, h => by
    simp only [fromHex, Except.error.injEq] at h
    exact h.symm
  | c1 :: c2 :: rest, e, h => by
    simp only [fromHex] at h
    cases h1 : hexVal c1 with
    | none =>
      simp only [h1, Except.error.injEq] at h
      exact h.symm
    | some hi =>
      cases h2 : hexVal c2 with
      | none =>
        simp only [h1, h2, Except.error.injEq] at h
        exact h.symm
      | some lo =>
        cases h3 : fromHex rest with
        | ok bs => simp [h1, h2, h3] at h
        | error e1 =>
          simp only [h1, h2, h3, Except.error.injEq] at h
          exact h ▸ fromHex_error rest e1 h3

theorem digest_plaintext_eq_error (self : JHash) (v : VALUE) (hex : Bool) (e : RubyError)
    (h : (digest_plaintext_eq self v hex).1 = .error e) :
    e = .TypeError ∨ e = .InvalidEncoding := by
  cases v with
  | str s =>
    cases hex with
    | false => simp [digest_plaintext_eq, JHash.setPlaintext] at h
    | true =>
      cases hf : fromHex s with
      | ok bs => simp [digest_plaintext_eq, JHash.setPlaintext, hf] at h
      | error e1 =>
        simp only [digest_plaintext_eq, JHash.setPlaintext, hf, if_true,
          Except.error.injEq] at h
        exact Or.inr (h ▸ fromHex_error s e1 hf)
  | nil => simp [digest_plaintext_eq] at h; exact Or.inl h.symm
  | fixnum n => simp [digest_plaintext_eq] at h; exact Or.inl h.symm
  | hash o => simp [digest_plaintext_eq] at h; exact Or.inl h.symm

theorem digest_digest_eq_error (self : JHash) (v : VALUE) (hex : Bool) (e : RubyError)
    (h : (digest_digest_eq self v hex).1 = .error e) :
    e = .TypeError ∨ e = .InvalidEncoding := by
  cases v with
  | str s =>
    cases hex with
    | false => simp [digest_digest_eq, JHash.setHashtext] at h
    | true =>
      cases hf : fromHex s with
      | ok bs => simp [digest_digest_eq, JHash.setHashtext, hf] at h
      | error e1 =>
        simp only [digest_digest_eq, JHash.setHashtext, hf, if_true,
          Except.error.injEq] at h
        exact Or.inr (h ▸ fromHex_error s e1 hf)
  | nil => simp [digest_digest_eq] at h; exact Or.inl h.symm
  | fixnum n => simp [digest_digest_eq] at h; exact Or.inl h.symm
  | hash o => simp [digest_digest_eq] at h; exact Or.inl h.symm

theorem digest_hmac_key_eq_error (self : JHash) (v : VALUE) (hex : Bool) (e : RubyError)
    (h : (digest_hmac_key_eq self v hex).1 = .error e) :
    e = .TypeError ∨ e = .InvalidEncoding := by
  cases v with
  | str s =>
    cases hex with
    | false => simp [digest_hmac_key_eq, JHMAC.setKey] at h
    | true =>
      cases hf : fromHex s with
      | ok bs => simp [digest_hmac_key_eq, JHMAC.setKey, hf] at h
      | error e1 =>
        simp only [digest_hmac_key_eq, JHMAC.setKey, hf, if_true,
          Except.error.injEq] at h
        exact Or.inr (h ▸ fromHex_error s e1 hf)
  | nil => simp [digest_hmac_key_eq] at h; exact Or.inl h.symm
  | fixnum n => simp [digest_hmac_key_eq] at h; exact Or.inl h.symm
  | hash o => simp [digest_hmac_key_eq] at h; exact Or.inl h.symm

theorem discard_error {α : Type} (r : Except RubyError α × JHash) (e : RubyError)
    (h : (discard r).1 = .error e) : r.1 = .error e := by
  rcases r with ⟨x, s⟩
  cases x with
  | ok a => simp [discard] at h
  | error e1 => simpa [discard] using h

theorem digest_options_plaintext_conflict (self : JHash) (o : List (String × VALUE))
    (h1 : NIL_P (aref o "plaintext") = false) (h2 : NIL_P (aref o "plaintext_hex") = false) :
    digest_options_plaintext self o
      = (.error (.CryptoPP_Error (.cant_set_both "plaintext" "plaintext_hex")), self) := by
  simp [digest_options_plaintext, h1, h2]

theorem digest_options_plaintext_error (self : JHash) (o : List (String × VALUE))
    (h : NIL_P (aref o "plaintext") = true ∨ NIL_P (aref o "plaintext_hex") = true) (e : RubyError)
    (he : (digest_options_plaintext self o).1 = .error e) :
    e = .TypeError ∨ e = .InvalidEncoding := by
  simp only [digest_options_plaintext] at he
  cases h1 : NIL_P (aref o "plaintext") with
  | false =>
    cases h2 : NIL_P (aref o "plaintext_hex") with
    | false => simp [h1, h2] at h
    | true =>
      simp only [h1, h2, Bool.not_false, Bool.not_true, Bool.and_false, Bool.false_eq_true,
        if_false, if_true] at he
      exact digest_plaintext_eq_error _ _ _ _ (discard_error _ _ he)
  | true =>
    cases h2 : NIL_P (aref o "plaintext_hex") with
    | false =>
      simp only [h1, h2, Bool.not_false, Bool.not_true, Bool.and_true, Bool.false_and,
        Bool.false_eq_true, if_false, if_true] at he
      exact digest_plaintext_eq_error _ _ _ _ (discard_error _ _ he)
    | true => simp [h1, h2] at he

theorem digest_options_plaintext_supplied (self : JHash) (o : List (String × VALUE)) (x : Bytes)
    (h : suppliedMember (aref o "plaintext") (aref o "plaintext_hex") self.itsPlaintext = some x) :
    digest_options_plaintext self o = (.ok (), { self with itsPlaintext := x }) := by
  simp only [digest_options_plaintext]
  generalize aref o "plaintext" = u at h ⊢
  generalize aref o "plaintext_hex" = v at h ⊢
  cases u with
  | nil =>
    cases v with
    | nil =>
      simp only [suppliedMember, Option.some.injEq] at h
      subst h
      simp [NIL_P]
    | str sv =>
      cases hf : fromHex sv with
      | ok bs =>
        simp only [suppliedMember, hf, Option.some.injEq] at h
        subst h
        simp [NIL_P, discard, digest_plaintext_eq, JHash.setPlaintext, hf]
      | error e1 => simp [suppliedMember, hf] at h
    | fixnum n => simp [suppliedMember] at h
    | hash es => simp [suppliedMember] at h
  | str su =>
    cases v with
    | nil =>
      simp only [suppliedMember, Option.some.injEq] at h
      subst h
      simp [NIL_P, discard, digest_plaintext_eq, JHash.setPlaintext]
    | str sv => simp [suppliedMember] at h
    | fixnum n => simp [suppliedMember] at h
    | hash es => simp [suppliedMember] at h
  | fixnum n => cases v <;> simp [suppliedMember] at h
  | hash es => cases v <;> simp [suppliedMember] at h

theorem digest_options_digest_conflict (self : JHash) (o : List (String × VALUE))
    (h1 : NIL_P (aref o "digest") = false) (h2 : NIL_P (aref o "digest_hex") = false) :
    digest_options_digest self o
      = (.error (.CryptoPP_Error (.cant_set_both "digest" "digest_hex")), self) := by
  simp [digest_options_digest, h1, h2]

theorem digest_options_digest_error (self : JHash) (o : List (String × VALUE))
    (h : NIL_P (aref o "digest") = true ∨ NIL_P (aref o "digest_hex") = true) (e : RubyError)
    (he : (digest_options_digest self o).1 = .error e) :
    e = .TypeError ∨ e = .InvalidEncoding := by
  simp only [digest_options_digest] at he
  cases h1 : NIL_P (aref o "digest") with
  | false =>
    cases h2 : NIL_P (aref o "digest_hex") with
    | false => simp [h1, h2] at h
    | true =>
      simp only [h1, h2, Bool.not_false, Bool.not_true, Bool.and_false, Bool.false_eq_true,
        if_false, if_true] at he
      exact digest_digest_eq_error _ _ _ _ (discard_error _ _ he)
  | true =>
    cases h2 : NIL_P (aref o "digest_hex") with
    | false =>
      simp only [h1, h2, Bool.not_false, Bool.not_true, Bool.and_true, Bool.false_and,
        Bool.false_eq_true, if_false, if_true] at he
      exact digest_digest_eq_error _ _ _ _ (discard_error _ _ he)
    | true => simp [h1, h2] at he

theorem digest_options_digest_supplied (self : JHash) (o : List (String × VALUE)) (x : Bytes)
    (h : suppliedMember (aref o "digest") (aref o "digest_hex") self.itsHashtext = some x) :
    digest_options_digest self o = (.ok (), { self with itsHashtext := x }) := by
  simp only [digest_options_digest]
  generalize aref o "digest" = u at h ⊢
  generalize aref o "digest_hex" = v at h ⊢
  cases u with
  | nil =>
    cases v with
    | nil =>
      simp only [suppliedMember, Option.some.injEq] at h
      subst h
      simp [NIL_P]
    | str sv =>
      cases hf : fromHex sv with
      | ok bs =>
        simp only [suppliedMember, hf, Option.some.injEq] at h
        subst h
        simp [NIL_P, discard, digest_digest_eq, JHash.setHashtext, hf]
      | error e1 => simp [suppliedMember, hf] at h
    | fixnum n => simp [suppliedMember] at h
    | hash es => simp [suppliedMember] at h
  | str su =>
    cases v with
    | nil =>
      simp only [suppliedMember, Option.some.injEq] at h
      subst h
      simp [NIL_P, discard, digest_digest_eq, JHash.setHashtext]
    | str sv => simp [suppliedMember] at h
    | fixnum n => simp [suppliedMember] at h
    | hash es => simp [suppliedMember] at h
  | fixnum n => cases v <;> simp [suppliedMember] at h
  | hash es => cases v <;> simp [suppliedMember] at h

theorem digest_hmac_options_key_conflict (self : JHash) (o : List (String × VALUE))
    (h1 : NIL_P (aref o "key") = false) (h2 : NIL_P (aref o "key_hex") = false) :
    digest_hmac_options_key self o
      = (.error (.CryptoPP_Error (.cant_set_both "key" "key_hex")), self) := by
  simp [digest_hmac_options_key, h1, h2]

theorem digest_hmac_options_key_error (self : JHash) (o : List (String × VALUE))
    (h : NIL_P (aref o "key") = true ∨ NIL_P (aref o "key_hex") = true) (e : RubyError)
    (he : (digest_hmac_options_key self o).1 = .error e) :
    e = .TypeError ∨ e = .InvalidEncoding := by
  simp only [digest_hmac_options_key] at he
  cases h1 : NIL_P (aref o "key") with
  | false =>
    cases h2 : NIL_P (aref o "key_hex") with
    | false => simp [h1, h2] at h
    | true =>
      simp only [h1, h2, Bool.not_false, Bool.not_true, Bool.and_false, Bool.false_eq_true,
        if_false, if_true] at he
      exact digest_hmac_key_eq_error _ _ _ _ (discard_error _ _ he)
  | true =>
    cases h2 : NIL_P (aref o "key_hex") with
    | false =>
      simp only [h1, h2, Bool.not_false, Bool.not_true, Bool.and_true, Bool.false_and,
        Bool.false_eq_true, if_false, if_true] at he
      exact digest_hmac_key_eq_error _ _ _ _ (discard_error _ _ he)
    | true => simp [h1, h2] at he

theorem digest_hmac_options_key_supplied (self : JHash) (o : List (String × VALUE)) (x : Bytes)
    (h : suppliedMember (aref o "key") (aref o "key_hex") self.itsKey = some x) :
    digest_hmac_options_key self o = (.ok (), { self with itsKey := x }) := by
  simp only [digest_hmac_options_key]
  generalize aref o "key" = u at h ⊢
  generalize aref o "key_hex" = v at h ⊢
  cases u with
  | nil =>
    cases v with
    | nil =>
      simp only [suppliedMember, Option.some.injEq] at h
      subst h
      simp [NIL_P]
    | str sv =>
      cases hf : fromHex sv with
      | ok bs =>
        simp only [suppliedMember, hf, Option.some.injEq] at h
        subst h
        simp [NIL_P, discard, digest_hmac_key_eq, JHMAC.setKey, hf]
      | error e1 => simp [suppliedMember, hf] at h
    | fixnum n => simp [suppliedMember] at h
    | hash es => simp [suppliedMember] at h
  | str su =>
    cases v with
    | nil =>
      simp only [suppliedMember, Option.some.injEq] at h
      subst h
      simp [NIL_P, discard, digest_hmac_key_eq, JHMAC.setKey]
    | str sv => simp [suppliedMember] at h
    | fixnum n => simp [suppliedMember] at h
    | hash es => simp [suppliedMember] at h
  | fixnum n => cases v <;> simp [suppliedMember] at h
  | hash es => cases v <;> simp [suppliedMember] at h

theorem NUM2UINT_error (l : VALUE) (e : RubyError) (h : NUM2UINT l = .error e) :
    e = .TypeError ∨ e = .RangeError := by
  cases l with
  | fixnum n =>
    simp only [NUM2UINT] at h
    split at h
    · simp at h
    · simp only [Except.error.injEq] at h
      exact Or.inr h.symm
  | nil => simp [NUM2UINT] at h; exact Or.inl h.symm
  | str s => simp [NUM2UINT] at h; exact Or.inl h.symm
  | hash o => simp [NUM2UINT] at h; exact Or.inl h.symm

theorem digest_hmac_options_key_length_no_conflict (self : JHash)
    (o : List (String × VALUE)) (a b : String) :
    (digest_hmac_options_key_length self o).1
      ≠ .error (.CryptoPP_Error (.cant_set_both a b)) := by
  intro h
  simp only [digest_hmac_options_key_length] at h
  cases hk : NIL_P (aref o "key_length") with
  | true => simp [hk] at h
  | false =>
    simp only [hk, Bool.not_false, if_true] at h
    have h1 := discard_error _ _ h
    simp only [rb_digest_hmac_key_length_eq] at h1
    cases hn : NUM2UINT (aref o "key_length") with
    | error e1 =>
      simp only [hn, Except.error.injEq] at h1
      rcases NUM2UINT_error _ _ hn with h2 | h2 <;> rw [h2] at h1 <;> cases h1
    | ok length =>
      simp only [hn] at h1
      split at h1 <;> simp at h1

theorem digest_hmac_options_key_length_absent (self : JHash) (o : List (String × VALUE))
    (h : NIL_P (aref o "key_length") = true) :
    digest_hmac_options_key_length self o = (.ok (), self) := by
  simp [digest_hmac_options_key_length, h]

/-- C5 as stated fails when two pairs are in conflict at once: the options
hold both members of the plaintext pair and both members of the digest pair,
and the error names the plaintext pair, not the digest pair. -/
theorem digest_options_names_first_pair_counterexample :
    NIL_P (aref options_two_conflicts "digest") = false ∧
    NIL_P (aref options_two_conflicts "digest_hex") = false ∧
    (digest_options (md5_object 32) (.hash options_two_conflicts)).1
      = .error (.CryptoPP_Error (.cant_set_both "plaintext" "plaintext_hex")) ∧
    (digest_options (md5_object 32) (.hash options_two_conflicts)).1
      ≠ .error (.CryptoPP_Error (.cant_set_both "digest" "digest_hex")) := by
  refine ⟨by decide, by decide, by decide, by decide⟩

/-- C5, amended. The pairs are checked in the order plaintext, digest, key,
each after the pair before it has been applied. Both members of the
plaintext pair supplied: the call fails naming that pair, the object
untouched. The plaintext pair applied without error and both members of the
digest pair supplied: the call fails naming the digest pair. For an HMAC,
plaintext and digest pair applied without error and both members of the key
pair supplied: the call fails naming the key pair. With at most one member
of every pair supplied no such error is raised, and when the supplied
members are Strings (valid hex for the hex members) the call succeeds and
the object holds the binary members as they are and the hex members
decoded. -/
theorem options_pairs (self : JHash) (o : List (String × VALUE)) :
    (NIL_P (aref o "plaintext") = false → NIL_P (aref o "plaintext_hex") = false →
      digest_options self (.hash o)
        = (.error (.CryptoPP_Error (.cant_set_both "plaintext" "plaintext_hex")), self) ∧
      digest_hmac_options self (.hash o)
        = (.error (.CryptoPP_Error (.cant_set_both "plaintext" "plaintext_hex")), self)) ∧
    (∀ s1 : JHash, digest_options_plaintext self o = (.ok (), s1) →
      NIL_P (aref o "digest") = false → NIL_P (aref o "digest_hex") = false →
      digest_options self (.hash o)
        = (.error (.CryptoPP_Error (.cant_set_both "digest" "digest_hex")), s1) ∧
      digest_hmac_options self (.hash o)
        = (.error (.CryptoPP_Error (.cant_set_both "digest" "digest_hex")), s1)) ∧
    (∀ s2 : JHash, digest_options self (.hash o) = (.ok (), s2) →
      NIL_P (aref o "key") = false → NIL_P (aref o "key_hex") = false →
      digest_hmac_options self (.hash o)
        = (.error (.CryptoPP_Error (.cant_set_both "key" "key_hex")), s2)) ∧
    ((NIL_P (aref o "plaintext") = true ∨ NIL_P (aref o "plaintext_hex") = true) →
      (NIL_P (aref o "digest") = true ∨ NIL_P (aref o "digest_hex") = true) →
      (∀ a b : String, (digest_options self (.hash o)).1
        ≠ .error (.CryptoPP_Error (.cant_set_both a b))) ∧
      ((NIL_P (aref o "key") = true ∨ NIL_P (aref o "key_hex") = true) →
        ∀ a b : String, (digest_hmac_options self (.hash o)).1
          ≠ .error (.CryptoPP_Error (.cant_set_both a b)))) ∧
    (∀ p d : Bytes,
      suppliedMember (aref o "plaintext") (aref o "plaintext_hex") self.itsPlaintext = some p →
      suppliedMember (aref o "digest") (aref o "digest_hex") self.itsHashtext = some d →
      digest_options self (.hash o)
        = (.ok (), { self with itsPlaintext := p, itsHashtext := d }) ∧
      (∀ k : Bytes, suppliedMember (aref o "key") (aref o "key_hex") self.itsKey = some k →
        NIL_P (aref o "key_length") = true →
        digest_hmac_options self (.hash o)
          = (.ok (), { self with itsPlaintext := p, itsHashtext := d, itsKey := k }))) := by
  refine ⟨?_, ?_, ?_, ?_, ?_⟩
  · intro h1 h2
    have e := digest_options_plaintext_conflict self o h1 h2
    have e1 : digest_options self (.hash o)
        = (.error (.CryptoPP_Error (.cant_set_both "plaintext" "plaintext_hex")), self) := by
      simp only [digest_options, e]
    exact ⟨e1, by simp only [digest_hmac_options, e1]⟩
  · intro s1 hp h1 h2
    have e := digest_options_digest_conflict s1 o h1 h2
    have e1 : digest_options self (.hash o)
        = (.error (.CryptoPP_Error (.cant_set_both "digest" "digest_hex")), s1) := by
      simp only [digest_options, hp, e]
    exact ⟨e1, by simp only [digest_hmac_options, e1]⟩
  · intro s2 hd h1 h2
    simp only [digest_hmac_options, hd, digest_hmac_options_key_conflict s2 o h1 h2]
  · intro hp hd
    have nd : ∀ a b : String, (digest_options self (.hash o)).1
        ≠ .error (.CryptoPP_Error (.cant_set_both a b)) := by
      intro a b h
      simp only [digest_options] at h
      rcases hr : digest_options_plaintext self o with ⟨r, s1⟩
      cases r with
      | error e1 =>
        simp only [hr, Except.error.injEq] at h
        have := digest_options_plaintext_error self o hp e1 (by rw [hr])
        rcases this with h2 | h2 <;> rw [h2] at h <;> cases h
      | ok u =>
        simp only [hr] at h
        have := digest_options_digest_error s1 o hd _ h
        rcases this with h2 | h2 <;> cases h2
    refine ⟨nd, ?_⟩
    intro hk a b h
    simp only [digest_hmac_options] at h
    rcases hr : digest_options self (.hash o) with ⟨r, s2⟩
    cases r with
    | error e1 =>
      simp only [hr, Except.error.injEq] at h
      exact nd a b (by rw [hr, h])
    | ok u =>
      simp only [hr] at h
      rcases hr2 : digest_hmac_options_key s2 o with ⟨r2, s3⟩
      cases r2 with
      | error e2 =>
        simp only [hr2, Except.error.injEq] at h
        have := digest_hmac_options_key_error s2 o hk e2 (by rw [hr2])
        rcases this with h2 | h2 <;> rw [h2] at h <;> cases h
      | ok u2 =>
        simp only [hr2] at h
        exact digest_hmac_options_key_length_no_conflict s3 o a b h
  · intro p d hp hd
    have e1 : digest_options self (.hash o)
        = (.ok (), { self with itsPlaintext := p, itsHashtext := d }) := by
      simp only [digest_options, digest_options_plaintext_supplied self o p hp]
      exact digest_options_digest_supplied { self with itsPlaintext := p } o d hd
    refine ⟨e1, ?_⟩
    intro k hk hl
    simp only [digest_hmac_options, e1]
    rw [digest_hmac_options_key_supplied { self with itsPlaintext := p, itsHashtext := d } o k hk]
    exact digest_hmac_options_key_length_absent _ o hl

/-- C5, amended, on the sample options with one member of each pair: the
HMAC object ends up with the binary plaintext, the decoded digest and the
decoded key. -/
theorem options_pairs_witness :
    suppliedMember (aref options_one_each "plaintext") (aref options_one_each "plaintext_hex")
      hmac_object.itsPlaintext = some abc ∧
    suppliedMember (aref options_one_each "digest") (aref options_one_each "digest_hex")
      hmac_object.itsHashtext = some md5_abc ∧
    suppliedMember (aref options_one_each "key") (aref options_one_each "key_hex")
      hmac_object.itsKey = some [107] ∧
    digest_hmac_options hmac_object (.hash options_one_each)
      = (.ok (), { hmac_object with itsPlaintext := abc, itsHashtext := md5_abc,
                                    itsKey := [107] }) :=
  ⟨by decide, by decide, by decide,
    ((options_pairs hmac_object options_one_each).2.2.2.2 abc md5_abc
      (by decide) (by decide)).2 [107] (by decide) (by decide)⟩

/-! ## C6 and C7: the key length and the key getters -/

theorem NUM2UINT_fixnum (n : Nat) (hn : n < 4294967296) : NUM2UINT (.fixnum n) = .ok n := by
  have h1 : (0 : Int) ≤ (n : Int) := Int.ofNat_nonneg n
  have h2 : (n : Int) < 4294967296 := by exact_mod_cast hn
  simp only [NUM2UINT, h1, h2, and_self, if_true, Int.toNat_ofNat]

theorem rb_digest_hmac_key_length_eq_ok (self : JHash) (l : VALUE) (n : Nat)
    (h : NUM2UINT l = .ok n) :
    rb_digest_hmac_key_length_eq self l
      = if JHMAC.getKeylength (JHMAC.setKeylength self n) ≠ n then
          (.error (.CryptoPP_Error (.key_length_tried_used n
            (JHMAC.getKeylength (JHMAC.setKeylength self n)))), JHMAC.setKeylength self n)
        else (.ok l, JHMAC.setKeylength self n) := by
  unfold rb_digest_hmac_key_length_eq
  rw [h]

/-- C6. For a length n that an unsigned int holds, rb_digest_hmac_key_length_eq
hands n to setKeylength and reads the effective length back with
getKeylength: it raises "tried to set a key length of n but m was used"
exactly when the effective length m differs from n, it raises nothing else,
and when the effective length is n it returns the argument and
rb_digest_hmac_key_length returns n afterwards. -/
theorem key_length_eq_checked (self : JHash) (n : Nat) (hn : n < 4294967296) :
    ((rb_digest_hmac_key_length_eq self (.fixnum n)).1
        = .error (.CryptoPP_Error (.key_length_tried_used n
            (JHMAC.getKeylength (JHMAC.setKeylength self n))))
      ↔ JHMAC.getKeylength (JHMAC.setKeylength self n) ≠ n) ∧
    (∀ e : RubyError, (rb_digest_hmac_key_length_eq self (.fixnum n)).1 = .error e →
      e = .CryptoPP_Error (.key_length_tried_used n
            (JHMAC.getKeylength (JHMAC.setKeylength self n)))) ∧
    (JHMAC.getKeylength (JHMAC.setKeylength self n) = n →
      (rb_digest_hmac_key_length_eq self (.fixnum n)).1 = .ok (.fixnum n) ∧
      rb_digest_hmac_key_length (rb_digest_hmac_key_length_eq self (.fixnum n)).2 = n) ∧
    (rb_digest_hmac_key_length_eq self (.fixnum n)).2 = JHMAC.setKeylength self n := by
  have e := rb_digest_hmac_key_length_eq_ok self (.fixnum n) n (NUM2UINT_fixnum n hn)
  by_cases h : JHMAC.getKeylength (JHMAC.setKeylength self n) = n
  · rw [e, if_neg (not_not.2 h)]
    simp [h, rb_digest_hmac_key_length]
  · rw [e, if_pos h]
    simp [h]

/-- C6 at two instances: the sample MD5 HMAC takes the length 20, the sample
primitive with a fixed key length of 16 refuses it. -/
theorem key_length_eq_checked_witness :
    (20 < 4294967296) ∧
    (rb_digest_hmac_key_length_eq hmac_object (.fixnum (20 : Nat))).1 = .ok (.fixnum (20 : Nat)) ∧
    rb_digest_hmac_key_length
      (rb_digest_hmac_key_length_eq hmac_object (.fixnum (20 : Nat))).2 = 20 ∧
    (rb_digest_hmac_key_length_eq fixed_key_object (.fixnum (20 : Nat))).1
      = .error (.CryptoPP_Error (.key_length_tried_used 20 16)) :=
  ⟨by decide,
   ((key_length_eq_checked hmac_object 20 (by decide)).2.2.1 (by decide)).1,
   ((key_length_eq_checked hmac_object 20 (by decide)).2.2.1 (by decide)).2,
   (key_length_eq_checked fixed_key_object 20 (by decide)).1.2 (by decide)⟩

/-- C7, the code at the failing input. rb_digest_hmac_key_hex passes the flag
false to digest_hmac_key, so it returns what rb_digest_hmac_key returns: for
the object with the key "k" the one byte "k", where the hex encoding of the
key is "6b". -/
theorem rb_digest_hmac_key_hex_returns_binary :
    (∀ self : JHash, rb_digest_hmac_key_hex self = rb_digest_hmac_key self) ∧
    rb_digest_hmac_key keyed_object = [107] ∧
    rb_digest_hmac_key_hex keyed_object = [107] ∧
    digest_hmac_key keyed_object true = [54, 98] ∧
    toHex keyed_object.itsKey = [54, 98] := by
  refine ⟨fun _ => rfl, ?_, ?_, ?_, ?_⟩ <;> decide

/-! ## C8 and C9: names and lists -/

theorem findCase_none {table : List AlgorithmDef} {id : Int} :
    findCase table id = none ↔ id ∉ table.map (fun d => d.id) := by
  simp only [findCase, List.find?_eq_none, decide_eq_true_eq, List.mem_map, not_exists,
    not_and]

theorem switch_none {b : Build} {id : Int} :
    b.switch id = none ↔
      (id ∉ b.checksums.map (fun d => d.id) ∧ id ∉ b.hashes.map (fun d => d.id) ∧
        id ∉ b.hmacs.map (fun d => d.id)) := by
  unfold Build.switch
  cases h1 : findCase b.checksums id with
  | some d1 =>
    have := findCase_some h1
    simp only [reduceCtorEq, false_iff, not_and]
    intro hc
    exact absurd (List.mem_map.2 ⟨d1, this.1, this.2⟩) hc
  | none =>
    cases h2 : findCase b.hashes id with
    | some d2 =>
      have := findCase_some h2
      simp only [reduceCtorEq, false_iff, not_and]
      intro _ hc
      exact absurd (List.mem_map.2 ⟨d2, this.1, this.2⟩) hc
    | none =>
      simp only [findCase_none]
      exact ⟨fun h3 => ⟨findCase_none.1 h1, findCase_none.1 h2, h3⟩, fun h => h.2.2⟩

theorem hash_enabled_iff (b : Build) (id : Int) :
    hash_enabled b id = true ↔
      (id ∈ b.checksums.map (fun d => d.id) ∨ id ∈ b.hashes.map (fun d => d.id) ∨
        id ∈ b.hmacs.map (fun d => d.id)) := by
  unfold hash_enabled
  cases hs : b.switch id with
  | some d =>
    obtain ⟨hm, hid⟩ := switch_some hs
    simp only [true_iff]
    rcases hm with hm | hm | hm
    · exact Or.inl (List.mem_map.2 ⟨d, hm, hid⟩)
    · exact Or.inr (Or.inl (List.mem_map.2 ⟨d, hm, hid⟩))
    · exact Or.inr (Or.inr (List.mem_map.2 ⟨d, hm, hid⟩))
  | none =>
    have := switch_none.1 hs
    simp only [Bool.false_eq_true, false_iff, not_or]
    exact this

/-- C8 as stated fails on an identifier that is declared but compiled out: in
the sample build 14 is an enumerator of HashEnum and a hash identifier, no
table has a line for it, hash_enabled is false, and the name lookup
raises. -/
theorem rb_module_digest_name_compiled_out_counterexample :
    14 ∈ sample_build.HashEnum ∧
    sample_build.IS_NON_HMAC 14 = true ∧
    hash_enabled sample_build 14 = false ∧
    rb_module_digest_name sample_build (.fixnum 14)
      = .error (.CryptoPP_Error .no_valid_digest_type) := by
  refine ⟨by decide, by decide, by decide, by decide⟩

/-- C8, amended. rb_module_digest_name raises "could not find a valid digest
type" exactly when hash_enabled is false for the identifier, and raises
nothing else on an Integer; for an enabled identifier it returns
getHashName() of the class the switch selects, which is "MD5" when that
class is JMD5 and "MD5-HMAC" when it is JMD5_HMAC. -/
theorem rb_module_digest_name_enabled (b : Build) (id : Int) :
    (rb_module_digest_name b (.fixnum id) = .error (.CryptoPP_Error .no_valid_digest_type)
      ↔ hash_enabled b id = false) ∧
    (∀ e : RubyError, rb_module_digest_name b (.fixnum id) = .error e →
      e = .CryptoPP_Error .no_valid_digest_type) ∧
    (hash_enabled b id = true →
      ∃ d : AlgorithmDef, b.switch id = some d ∧
        rb_module_digest_name b (.fixnum id) = .ok d.c.getHashName) ∧
    (∀ (d : AlgorithmDef) (base : JClass), b.switch id = some d → d.c = JMD5 base →
      rb_module_digest_name b (.fixnum id) = .ok "MD5") ∧
    (∀ (d : AlgorithmDef) (base : JClass), b.switch id = some d → d.c = JMD5_HMAC base →
      rb_module_digest_name b (.fixnum id) = .ok "MD5-HMAC") := by
  cases hs : b.switch id with
  | none =>
    simp [rb_module_digest_name, NUM2LONG, hash_enabled, hs]
  | some d =>
    refine ⟨by simp [rb_module_digest_name, NUM2LONG, hash_enabled, hs],
      by simp [rb_module_digest_name, NUM2LONG, hs],
      fun _ => ⟨d, rfl, by simp [rb_module_digest_name, NUM2LONG, hs]⟩, ?_, ?_⟩
    · intro d1 base h1 h2
      cases h1
      simp [rb_module_digest_name, NUM2LONG, hs, h2, JMD5]
    · intro d1 base h1 h2
      cases h1
      simp [rb_module_digest_name, NUM2LONG, hs, h2, JMD5_HMAC]

/-- C8, amended, on the sample build: 13 is MD5 and 113 is the MD5 HMAC. -/
theorem rb_module_digest_name_enabled_witness :
    rb_module_digest_name sample_build (.fixnum 13) = .ok "MD5" ∧
    rb_module_digest_name sample_build (.fixnum 113) = .ok "MD5-HMAC" :=
  ⟨(rb_module_digest_name_enabled sample_build 13).2.2.2.1
      { r := "MD5", id := 13, c := JMD5 (sample_MD5_base 32) } (sample_MD5_base 32) rfl rfl,
   (rb_module_digest_name_enabled sample_build 113).2.2.2.2
      { r := "MD5", id := 113, c := JMD5_HMAC sample_MD5_HMAC_base } sample_MD5_HMAC_base rfl rfl⟩

/-- C9. In a build whose identifiers are partitioned as the data model says,
an identifier is in the list of rb_module_digest_list exactly when it is a
non HMAC identifier and enabled, and in the list of rb_module_hmac_list
exactly when it is an HMAC identifier and enabled; no identifier is in both
lists; and in the first list every checksum identifier stands at a smaller
index than every hash identifier. Both lists are functions of the build
alone, so a repeated call returns the same sequence. -/
theorem digest_lists (b : Build) (wf : b.WellFormed) :
    (∀ id : Int, id ∈ rb_module_digest_list b
      ↔ (b.IS_NON_HMAC id = true ∧ hash_enabled b id = true)) ∧
    (∀ id : Int, id ∈ rb_module_hmac_list b
      ↔ (b.IS_HMAC id = true ∧ hash_enabled b id = true)) ∧
    (∀ id : Int, id ∈ rb_module_digest_list b → id ∉ rb_module_hmac_list b) ∧
    (∀ (i j : Nat) (x y : Int),
      (rb_module_digest_list b)[i]? = some x → (rb_module_digest_list b)[j]? = some y →
      x ∈ b.checksums.map (fun d => d.id) → y ∈ b.hashes.map (fun d => d.id) → i < j) := by
  have hnon : ∀ id : Int, id ∈ rb_module_digest_list b → b.IS_NON_HMAC id = true := by
    intro id h
    simp only [rb_module_digest_list, List.mem_append, List.mem_map] at h
    rcases h with ⟨d, hd, rfl⟩ | ⟨d, hd, rfl⟩
    · exact wf.non_hmac d (List.mem_append.2 (Or.inl hd))
    · exact wf.non_hmac d (List.mem_append.2 (Or.inr hd))
  have hhm : ∀ id : Int, id ∈ rb_module_hmac_list b → b.IS_HMAC id = true := by
    intro id h
    simp only [rb_module_hmac_list, List.mem_map] at h
    rcases h with ⟨d, hd, rfl⟩
    exact wf.hmac d hd
  refine ⟨?_, ?_, ?_, ?_⟩
  · intro id
    constructor
    · intro h
      refine ⟨hnon id h, (hash_enabled_iff b id).2 ?_⟩
      simp only [rb_module_digest_list, List.mem_append] at h
      rcases h with h | h
      · exact Or.inl h
      · exact Or.inr (Or.inl h)
    · rintro ⟨h1, h2⟩
      rcases (hash_enabled_iff b id).1 h2 with h | h | h
      · exact List.mem_append.2 (Or.inl h)
      · exact List.mem_append.2 (Or.inr h)
      · exact absurd ⟨hhm id h, h1⟩ (wf.disjoint id)
  · intro id
    constructor
    · intro h
      exact ⟨hhm id h, (hash_enabled_iff b id).2 (Or.inr (Or.inr h))⟩
    · rintro ⟨h1, h2⟩
      rcases (hash_enabled_iff b id).1 h2 with h | h | h
      · exact absurd ⟨h1, hnon id (List.mem_append.2 (Or.inl h))⟩ (wf.disjoint id)
      · exact absurd ⟨h1, hnon id (List.mem_append.2 (Or.inr h))⟩ (wf.disjoint id)
      · exact h
  · intro id h1 h2
    exact wf.disjoint id ⟨hhm id h2, hnon id h1⟩
  · intro i j x y hi hj hx hy
    have hdis : ∀ z : Int, z ∈ b.checksums.map (fun d => d.id) →
        z ∈ b.hashes.map (fun d => d.id) → False := by
      intro z hz1 hz2
      obtain ⟨c, hc, rfl⟩ := List.mem_map.1 hz1
      obtain ⟨h, hh, he⟩ := List.mem_map.1 hz2
      exact wf.distinct c hc h hh he.symm
    simp only [rb_module_digest_list] at hi hj
    have h1 : i < (b.checksums.map (fun d => d.id)).length := by
      by_contra hge
      rw [List.getElem?_append_right (by omega)] at hi
      exact hdis x hx (List.getElem?_mem hi)
    have h2 : (b.checksums.map (fun d => d.id)).length ≤ j := by
      by_contra hlt
      rw [List.getElem?_append_left (by omega)] at hj
      exact hdis y (List.getElem?_mem hj) hy
    omega

theorem sample_build_wellFormed : sample_build.WellFormed where
  non_hmac := by
    intro d hd
    simp only [sample_build, List.cons_append, List.nil_append, List.mem_cons,
      List.mem_singleton, List.not_mem_nil, or_false] at hd
    rcases hd with rfl | rfl <;> decide
  hmac := by
    intro d hd
    simp only [sample_build, List.mem_singleton] at hd
    subst hd
    decide
  disjoint := by
    intro id h
    simp only [sample_build, decide_eq_true_eq] at h
    omega
  distinct := by
    intro c hc h hh
    simp only [sample_build, List.mem_singleton] at hc hh
    subst hc
    subst hh
    decide

/-- C9 on the sample build: the lists are [1, 13] and [113], and the
checksum 1 at index 0 stands before the hash 13 at index 1. -/
theorem digest_lists_witness :
    rb_module_digest_list sample_build = [1, 13] ∧
    rb_module_hmac_list sample_build = [113] ∧
    (13 ∈ rb_module_digest_list sample_build
      ↔ (sample_build.IS_NON_HMAC 13 = true ∧ hash_enabled sample_build 13 = true)) ∧
    (0 < 1) :=
  ⟨rfl, rfl, (digest_lists sample_build sample_build_wellFormed).1 13,
   (digest_lists sample_build sample_build_wellFormed).2.2.2 0 1 1 13 rfl rfl
     (by decide) (by decide)⟩

/-! ## C10: setting the plaintext leaves the hashtext -/

/-- C10. digest_plaintext_eq never changes the hashtext. After
digest_calculate and then digest_plaintext_eq with a String, the hashtext
read back is still the transform of the old plaintext; a binary plaintext is
stored as it is and a valid hex plaintext is stored decoded; and the next
digest_calculate returns the transform of the plaintext as it then
stands. -/
theorem plaintext_eq_keeps_hashtext (self : JHash) (p : Bytes) (hex : Bool) :
    (∀ v : VALUE, (digest_plaintext_eq self v hex).2.itsHashtext = self.itsHashtext) ∧
    digest_digest (digest_plaintext_eq (digest_calculate self false).2 (.str p) hex).2 false
      = self.klass.transform self.itsKey self.itsKeylength self.itsPlaintext ∧
    digest_digest (digest_plaintext_eq (digest_calculate self false).2 (.str p) hex).2 false
      = (digest_calculate self false).1 ∧
    (hex = false →
      digest_plaintext_eq self (.str p) hex = (.ok p, { self with itsPlaintext := p })) ∧
    (∀ bs : Bytes, hex = true → fromHex p = .ok bs →
      digest_plaintext_eq self (.str p) hex
        = (.ok (toHex bs), { self with itsPlaintext := bs })) ∧
    (digest_calculate (digest_plaintext_eq (digest_calculate self false).2 (.str p) hex).2
        false).1
      = self.klass.transform self.itsKey self.itsKeylength
          (digest_plaintext_eq (digest_calculate self false).2 (.str p) hex).2.itsPlaintext := by
  have frame : ∀ (s : JHash) (v : VALUE),
      (digest_plaintext_eq s v hex).2.itsHashtext = s.itsHashtext ∧
      (digest_plaintext_eq s v hex).2.klass = s.klass ∧
      (digest_plaintext_eq s v hex).2.itsKey = s.itsKey ∧
      (digest_plaintext_eq s v hex).2.itsKeylength = s.itsKeylength := by
    intro s v
    cases v with
    | str x =>
      cases hex with
      | false => simp [digest_plaintext_eq, JHash.setPlaintext]
      | true =>
        cases hf : fromHex x with
        | ok bs => simp [digest_plaintext_eq, JHash.setPlaintext, hf]
        | error e => simp [digest_plaintext_eq, JHash.setPlaintext, hf]
    | nil => simp [digest_plaintext_eq]
    | fixnum n => simp [digest_plaintext_eq]
    | hash o => simp [digest_plaintext_eq]
  have calc1 : (digest_calculate self false).2.itsHashtext
      = self.klass.transform self.itsKey self.itsKeylength self.itsPlaintext := rfl
  refine ⟨fun v => (frame self v).1, ?_, ?_, ?_, ?_, ?_⟩
  · simp only [digest_digest, JHash.getHashtext, Bool.false_eq_true, if_false,
      (frame _ _).1, calc1]
  · simp only [digest_digest, JHash.getHashtext, Bool.false_eq_true, if_false,
      (frame _ _).1, digest_calculate]
  · intro h
    subst h
    simp [digest_plaintext_eq, JHash.setPlaintext, JHash.getPlaintext]
  · intro bs h hf
    subst h
    simp [digest_plaintext_eq, JHash.setPlaintext, JHash.getPlaintext, hf]
  · obtain ⟨_, h2, h3, h4⟩ := frame (digest_calculate self false).2 (.str p)
    simp only [digest_calculate, JHash.hash, JHash.getHashtext, Bool.false_eq_true, if_false]
    simp only [digest_calculate, JHash.hash] at h2 h3 h4
    rw [h2, h3, h4]

/-- C10 on the JMD5 object holding "abc": after the digest is computed and the
plaintext is replaced by the hex string "61", the plaintext is "a" and the
hashtext is still the digest of "abc". -/
theorem plaintext_eq_keeps_hashtext_witness :
    fromHex [54, 49] = .ok [97] ∧
    digest_plaintext_eq (md5_object 32) (.str [54, 49]) true
      = (.ok [54, 49], { md5_object 32 with itsPlaintext := [97] }) ∧
    digest_digest
      (digest_plaintext_eq (digest_calculate (md5_object 32) false).2 (.str [54, 49]) true).2
      false = md5_abc :=
  ⟨by decide,
   (plaintext_eq_keeps_hashtext (md5_object 32) [54, 49] true).2.2.2.2.1 [97] rfl (by decide),
   (plaintext_eq_keeps_hashtext (md5_object 32) [54, 49] true).2.1⟩

/-! ## C11: validation -/

/-- C11. rb_digest_validate is true on the object digest_calculate leaves
behind, for every class and every plaintext; it is false exactly when the
stored hashtext differs from the transform of the current plaintext, in
particular when the stored hashtext is empty and the digest is not; its
result is a boolean, and it leaves the object as it was. -/
theorem validate_after_calculate (self : JHash) (hex : Bool) :
    (rb_digest_validate (digest_calculate self hex).2).1 = true ∧
    ((rb_digest_validate self).1 = false
      ↔ self.itsHashtext ≠ self.klass.transform self.itsKey self.itsKeylength self.itsPlaintext) ∧
    (self.itsHashtext = [] →
      self.klass.transform self.itsKey self.itsKeylength self.itsPlaintext ≠ [] →
      (rb_digest_validate self).1 = false) ∧
    (rb_digest_validate self).2 = self := by
  have hv : ∀ s : JHash, (rb_digest_validate s).1 = s.validate := by
    intro s
    unfold rb_digest_validate
    cases s.validate <;> rfl
  refine ⟨?_, ?_, ?_, ?_⟩
  · rw [hv]
    simp [JHash.validate, digest_calculate, JHash.hash]
  · rw [hv]
    simp only [JHash.validate, decide_eq_false_iff_not]
    exact ⟨fun h e => h e.symm, fun h e => h e.symm⟩
  · intro h1 h2
    rw [hv]
    simp only [JHash.validate, decide_eq_false_iff_not, h1]
    exact h2
  · unfold rb_digest_validate
    cases self.validate <;> rfl

/-- C11 on the JMD5 object holding "abc": with the hashtext emptied the
validation is false, after digest_calculate it is true. -/
theorem validate_after_calculate_witness :
    (rb_digest_validate { md5_object 32 with itsHashtext := [] }).1 = false ∧
    (rb_digest_validate
      (digest_calculate { md5_object 32 with itsHashtext := [] } false).2).1 = true :=
  ⟨(validate_after_calculate { md5_object 32 with itsHashtext := [] } false).2.2.1
      rfl (by decide),
   (validate_after_calculate { md5_object 32 with itsHashtext := [] } false).1⟩

/-! ## rb_digest_update -/

/-- Whatever updatePlaintext does and whatever the default flag of
getHashtext() is: on a String, rb_digest_update returns getHashtext() of the
object after the call, the stored hashtext is then the transform of the
plaintext as updatePlaintext left it, and rb_digest_validate is true on the
object after the call. Whether the returned string is binary or hex is the
default flag, which these sources do not fix. -/
theorem update_recomputes (updatePlaintext : JHash → Bytes → JHash)
    (getHashtext_default : Bool) (self : JHash) (p : Bytes) :
    (rb_digest_update updatePlaintext getHashtext_default self (.str p)).1
      = .ok ((rb_digest_update updatePlaintext getHashtext_default self (.str p)).2.getHashtext
          getHashtext_default) ∧
    (rb_digest_update updatePlaintext getHashtext_default self (.str p)).2.itsPlaintext
      = (updatePlaintext self p).itsPlaintext ∧
    (rb_digest_update updatePlaintext getHashtext_default self (.str p)).2.itsHashtext
      = (updatePlaintext self p).klass.transform (updatePlaintext self p).itsKey
          (updatePlaintext self p).itsKeylength (updatePlaintext self p).itsPlaintext ∧
    (rb_digest_validate
      (rb_digest_update updatePlaintext getHashtext_default self (.str p)).2).1 = true := by
  refine ⟨rfl, rfl, rfl, ?_⟩
  have hv : ((updatePlaintext self p).hash).validate = true := by
    simp [JHash.validate, JHash.hash]
  simp only [rb_digest_update, rb_digest_validate, hv, if_true]

/-- The two readings of the default flag on the JMD5 object holding "ab",
updated by appending "c": the returned string is the 16 digest bytes of
"abc" under the default false and their 32 hex characters under the default
true. -/
theorem update_recomputes_readings :
    (rb_digest_update (fun h p => { h with itsPlaintext := h.itsPlaintext ++ p }) false
      { md5_object 32 with itsPlaintext := [97, 98] } (.str [99])).1 = .ok md5_abc ∧
    (rb_digest_update (fun h p => { h with itsPlaintext := h.itsPlaintext ++ p }) true
      { md5_object 32 with itsPlaintext := [97, 98] } (.str [99])).1 = .ok md5_abc_hex := by
  constructor <;> decide

/-! ## C15: no rollback on a conflict -/

/-- C15. With both plaintext and plaintext_hex supplied digest_options fails
naming that pair and the object is as before. With the plaintext pair giving
the plaintext p (at most one member supplied, a String, valid hex for the hex
member) and both digest and digest_hex supplied, it fails naming the digest
pair and the object holds p as its plaintext already. For digest_hmac_options
with the plaintext pair giving p, the digest pair giving d and both key and
key_hex supplied, the failure names the key pair and the object holds p and d
already. -/
theorem options_not_rolled_back (self : JHash) (o : List (String × VALUE)) :
    (NIL_P (aref o "plaintext") = false → NIL_P (aref o "plaintext_hex") = false →
      digest_options self (.hash o)
        = (.error (.CryptoPP_Error (.cant_set_both "plaintext" "plaintext_hex")), self)) ∧
    (∀ p : Bytes,
      suppliedMember (aref o "plaintext") (aref o "plaintext_hex") self.itsPlaintext = some p →
      NIL_P (aref o "digest") = false → NIL_P (aref o "digest_hex") = false →
      digest_options self (.hash o)
        = (.error (.CryptoPP_Error (.cant_set_both "digest" "digest_hex")),
            { self with itsPlaintext := p })) ∧
    (∀ p d : Bytes,
      suppliedMember (aref o "plaintext") (aref o "plaintext_hex") self.itsPlaintext = some p →
      suppliedMember (aref o "digest") (aref o "digest_hex") self.itsHashtext = some d →
      NIL_P (aref o "key") = false → NIL_P (aref o "key_hex") = false →
      digest_hmac_options self (.hash o)
        = (.error (.CryptoPP_Error (.cant_set_both "key" "key_hex")),
            { self with itsPlaintext := p, itsHashtext := d })) := by
  refine ⟨?_, ?_, ?_⟩
  · intro h1 h2
    simp only [digest_options, digest_options_plaintext_conflict self o h1 h2]
  · intro p hp h1 h2
    simp only [digest_options, digest_options_plaintext_supplied self o p hp]
    exact digest_options_digest_conflict { self with itsPlaintext := p } o h1 h2
  · intro p d hp hd h1 h2
    have e1 : digest_options self (.hash o)
        = (.ok (), { self with itsPlaintext := p, itsHashtext := d }) := by
      simp only [digest_options, digest_options_plaintext_supplied self o p hp]
      exact digest_options_digest_supplied { self with itsPlaintext := p } o d hd
    simp only [digest_hmac_options, e1,
      digest_hmac_options_key_conflict { self with itsPlaintext := p, itsHashtext := d } o h1 h2]

/-- C15 on the sample options: the MD5 object given the plaintext "abc" and
both digest members ends with the error and with "abc" stored over its empty
plaintext; the HMAC object given plaintext, hex digest and both key members
ends with the error and with plaintext and digest stored. -/
theorem options_not_rolled_back_witness :
    digest_options { md5_object 32 with itsPlaintext := [] }
        (.hash options_plaintext_then_conflict)
      = (.error (.CryptoPP_Error (.cant_set_both "digest" "digest_hex")),
          { md5_object 32 with itsPlaintext := abc }) ∧
    digest_hmac_options hmac_object (.hash options_then_key_conflict)
      = (.error (.CryptoPP_Error (.cant_set_both "key" "key_hex")),
          { hmac_object with itsPlaintext := abc, itsHashtext := md5_abc }) :=
  ⟨(options_not_rolled_back { md5_object 32 with itsPlaintext := [] }
      options_plaintext_then_conflict).2.1 abc (by decide) (by decide) (by decide),
   (options_not_rolled_back hmac_object options_then_key_conflict).2.2 abc md5_abc
      (by decide) (by decide) (by decide) (by decide)⟩

/-! ## C12: the hex codec round trip -/

set_option maxRecDepth 100000 in
theorem hexVal_all : ∀ c : Byte,
    (hexVal c).all (fun v => decide (v < 16) && decide (hexDigit v = downcaseByte c)) = true := by
  decide

theorem hexVal_some (c : Byte) (v : Nat) (h : hexVal c = some v) :
    v < 16 ∧ hexDigit v = downcaseByte c := by
  have h1 := hexVal_all c
  rw [h] at h1
  simpa using h1

theorem hexVal_hexDigit (n : Nat) (h : n < 16) : hexVal (hexDigit n) = some n := by
  interval_cases n <;> rfl

theorem ofNat_hi_lo (hi lo : Nat) (h1 : hi < 16) (h2 : lo < 16) :
    (Fin.ofNat (16 * hi + lo) : Byte).val / 16 = hi ∧
    (Fin.ofNat (16 * hi + lo) : Byte).val % 16 = lo := by
  have e : (Fin.ofNat (16 * hi + lo) : Byte).val = (16 * hi + lo) % 256 := rfl
  rw [e]
  omega

theorem ofNat_div_mod (b : Byte) : (Fin.ofNat (16 * (b.val / 16) + b.val % 16) : Byte) = b := by
  apply Fin.ext
  have e : (Fin.ofNat (16 * (b.val / 16) + b.val % 16) : Byte).val
      = (16 * (b.val / 16) + b.val % 16) % 256 := rfl
  rw [e]
  have := b.isLt
  omega

theorem fromHex_ok_toHex : ∀ (s bs : Bytes), fromHex s = .ok bs → toHex bs = downcase s
  | [], bs, h => by
    simp only [fromHex, Except.ok.injEq] at h
    subst h
    rfl
  | [_], bs, h => by simp [fromHex] at h
  | c1 :: c2 :: rest, bs, h => by
    simp only [fromHex] at h
    cases h1 : hexVal c1 with
    | none => simp [h1] at h
    | some hi =>
      cases h2 : hexVal c2 with
      | none => simp [h1, h2] at h
      | some lo =>
        cases h3 : fromHex rest with
        | error e => simp [h1, h2, h3] at h
        | ok tail =>
          simp only [h1, h2, h3, Except.ok.injEq] at h
          subst h
          obtain ⟨a1, a2⟩ := hexVal_some c1 hi h1
          obtain ⟨b1, b2⟩ := hexVal_some c2 lo h2
          obtain ⟨d1, d2⟩ := ofNat_hi_lo hi lo a1 b1
          have ih := fromHex_ok_toHex rest tail h3
          simp only [toHex, d1, d2, a2, b2, ih, downcase, List.map_cons]

theorem fromHex_toHex (b : Bytes) : fromHex (toHex b) = .ok b := by
  induction b with
  | nil => rfl
  | cons x xs ih =>
    have h1 : x.val / 16 < 16 := by omega
    have h2 : x.val % 16 < 16 := by omega
    simp only [toHex, fromHex, hexVal_hexDigit _ h1, hexVal_hexDigit _ h2, ih, ofNat_div_mod]

theorem fromHex_ok_valid : ∀ (s bs : Bytes), fromHex s = .ok bs →
    s.length % 2 = 0 ∧ ∀ c ∈ s, hexVal c ≠ none
  | [], _, _ => by simp
  | [_], bs, h => by simp [fromHex] at h
  | c1 :: c2 :: rest, bs, h => by
    simp only [fromHex] at h
    cases h1 : hexVal c1 with
    | none => simp [h1] at h
    | some hi =>
      cases h2 : hexVal c2 with
      | none => simp [h1, h2] at h
      | some lo =>
        cases h3 : fromHex rest with
        | error e => simp [h1, h2, h3] at h
        | ok tail =>
          obtain ⟨l, m⟩ := fromHex_ok_valid rest tail h3
          refine ⟨by simp only [List.length_cons]; omega, ?_⟩
          intro c hc
          simp only [List.mem_cons] at hc
          rcases hc with rfl | rfl | hc
          · simp [h1]
          · simp [h2]
          · exact m c hc

theorem fromHex_valid_ok : ∀ (s : Bytes), s.length % 2 = 0 → (∀ c ∈ s, hexVal c ≠ none) →
    ∃ bs : Bytes, fromHex s = .ok bs
  | [], _, _ => ⟨[], rfl⟩
  | [_], h, _ => by simp at h
  | c1 :: c2 :: rest, h, m => by
    have hl : rest.length % 2 = 0 := by
      simp only [List.length_cons] at h
      omega
    obtain ⟨tail, ht⟩ := fromHex_valid_ok rest hl
      (fun c hc => m c (List.mem_cons_of_mem _ (List.mem_cons_of_mem _ hc)))
    have m1 := m c1 (List.mem_cons_self _ _)
    have m2 := m c2 (List.mem_cons_of_mem _ (List.mem_cons_self _ _))
    cases h1 : hexVal c1 with
    | none => exact absurd h1 m1
    | some hi =>
      cases h2 : hexVal c2 with
      | none => exact absurd h2 m2
      | some lo =>
        exact ⟨Fin.ofNat (16 * hi + lo) :: tail, by simp only [fromHex, h1, h2, ht]⟩

theorem validHex_iff (s : Bytes) :
    validHex s = true ↔ (s.length % 2 = 0 ∧ ∀ c ∈ s, hexVal c ≠ none) := by
  simp only [validHex, Bool.and_eq_true, decide_eq_true_eq, List.all_eq_true,
    Option.isSome_iff_ne_none]

/-- C12. For a valid hex string s (even length, hex digits only) fromHex
succeeds, digest_plaintext_eq with the hex flag stores the decoded bytes and
returns the lowercase of s, which is what the hex getter gives afterwards:
toHex after fromHex is the lowercase of s. For every byte string b, fromHex
after toHex gives back b. On a string of odd length, and on a string with a
character that is no hex digit, fromHex fails with InvalidEncoding; it fails
exactly on the strings that are not valid hex. -/
theorem hex_round_trip (self : JHash) (s b : Bytes) :
    (validHex s = true →
      ∃ bs : Bytes, fromHex s = .ok bs ∧ toHex bs = downcase s ∧
        digest_plaintext_eq self (.str s) true
          = (.ok (downcase s), { self with itsPlaintext := bs }) ∧
        digest_plaintext (digest_plaintext_eq self (.str s) true).2 true = downcase s) ∧
    fromHex (toHex b) = .ok b ∧
    (s.length % 2 = 1 → fromHex s = .error .InvalidEncoding) ∧
    ((∃ c ∈ s, hexVal c = none) → fromHex s = .error .InvalidEncoding) ∧
    (validHex s = false ↔ fromHex s = .error .InvalidEncoding) := by
  have fails : validHex s = false → fromHex s = .error .InvalidEncoding := by
    intro hv
    cases hf : fromHex s with
    | error e => rw [fromHex_error s e hf]
    | ok bs =>
      have := (validHex_iff s).2 (fromHex_ok_valid s bs hf)
      rw [hv] at this
      cases this
  refine ⟨?_, fromHex_toHex b, ?_, ?_, ?_⟩
  · intro hv
    obtain ⟨l, m⟩ := (validHex_iff s).1 hv
    obtain ⟨bs, hb⟩ := fromHex_valid_ok s l m
    have ht := fromHex_ok_toHex s bs hb
    have e : digest_plaintext_eq self (.str s) true
        = (.ok (downcase s), { self with itsPlaintext := bs }) := by
      simp [digest_plaintext_eq, JHash.setPlaintext, JHash.getPlaintext, hb, ht]
    refine ⟨bs, hb, ht, e, ?_⟩
    rw [e]
    simp [digest_plaintext, JHash.getPlaintext, ht]
  · intro ho
    apply fails
    cases hv : validHex s with
    | false => rfl
    | true =>
      have := ((validHex_iff s).1 hv).1
      omega
  · rintro ⟨c, hc, hn⟩
    apply fails
    cases hv : validHex s with
    | false => rfl
    | true => exact absurd hn (((validHex_iff s).1 hv).2 c hc)
  · constructor
    · exact fails
    · intro hf
      cases hv : validHex s with
      | false => rfl
      | true =>
        obtain ⟨l, m⟩ := (validHex_iff s).1 hv
        obtain ⟨bs, hb⟩ := fromHex_valid_ok s l m
        rw [hb] at hf
        cases hf

/-- C12 on the uppercase hex form of the MD5 digest of "abc": it is valid
hex, decodes to the 16 digest bytes, and the hex getter returns the
lowercase form. -/
theorem hex_round_trip_witness :
    validHex md5_abc_HEX = true ∧
    (∃ bs : Bytes, fromHex md5_abc_HEX = .ok bs ∧ toHex bs = downcase md5_abc_HEX ∧
      digest_plaintext_eq (md5_object 32) (.str md5_abc_HEX) true
        = (.ok (downcase md5_abc_HEX), { md5_object 32 with itsPlaintext := bs }) ∧
      digest_plaintext (digest_plaintext_eq (md5_object 32) (.str md5_abc_HEX) true).2 true
        = downcase md5_abc_HEX) ∧
    fromHex [54] = .error .InvalidEncoding ∧
    fromHex [54, 103] = .error .InvalidEncoding :=
  ⟨by decide,
   (hex_round_trip (md5_object 32) md5_abc_HEX []).1 (by decide),
   (hex_round_trip (md5_object 32) [54] []).2.2.1 (by decide),
   (hex_round_trip (md5_object 32) [54, 103] []).2.2.2.1 ⟨103, by decide, by decide⟩⟩

/-! ## C13: the stream digester -/

theorem feedChunks_some (chunks : List Bytes) :
    ∀ fed : Bytes, feedChunks (chunks.map some) fed = .ok (fed ++ chunks.flatten) := by
  induction chunks with
  | nil =>
    intro fed
    simp [feedChunks]
  | cons c cs ih =>
    intro fed
    simp only [List.map_cons, feedChunks, ih, List.flatten_cons, List.append_assoc]

theorem hashRubyIO_chunks (h : JHash) (chunks : List Bytes) (hex : Bool) :
    JHash.hashRubyIO h (chunks.map some) hex
      = .ok (digest_calculate { h with itsPlaintext := chunks.flatten } hex).1 := by
  simp only [JHash.hashRubyIO, feedChunks_some, List.nil_append, digest_calculate, JHash.hash,
    JHash.getHashtext]

theorem digest_factory_enabled (b : Build) (id : Int) (d : AlgorithmDef)
    (hs : b.switch id = some d) (hc : d.c.ctorThrows = none) :
    digest_factory b id = .ok (some ⟨d.c, [], [], [], 0⟩) := by
  simp [digest_factory_switch b id d hs, JClass.new, hc]

/-- C13. For an enabled algorithm whose constructor does not throw and a
source whose reads give the chunks of a list, module_digest_io returns what
creating the object, digest_plaintext_eq with the concatenation of the chunks
and digest_calculate with the same hex flag return; for an identifier that
is not an HMAC this is what module_digest returns on the concatenation; and
two sources with the same concatenation give the same result, however they
are split. -/
theorem stream_digest_eq (b : Build) (id : Int) (chunks : List Bytes) (hex : Bool)
    (he : hash_enabled b id = true)
    (hc : ∀ d : AlgorithmDef, b.switch id = some d → d.c.ctorThrows = none) :
    (∃ (d : AlgorithmDef) (h0 : JHash), b.switch id = some d ∧ d.c.new = .ok h0 ∧
      module_digest_io b (.fixnum id) (chunks.map some) hex
        = .ok (digest_calculate
            (digest_plaintext_eq h0 (.str chunks.flatten) false).2 hex).1) ∧
    (b.IS_HMAC id = false →
      module_digest_io b (.fixnum id) (chunks.map some) hex
        = module_digest b [.fixnum id, .str chunks.flatten] hex) ∧
    (∀ chunks2 : List Bytes, chunks2.flatten = chunks.flatten →
      module_digest_io b (.fixnum id) (chunks2.map some) hex
        = module_digest_io b (.fixnum id) (chunks.map some) hex) := by
  cases hs : b.switch id with
  | none => simp [hash_enabled, hs] at he
  | some d =>
    have hf := digest_factory_enabled b id d hs (hc d hs)
    have io : ∀ cs : List Bytes, module_digest_io b (.fixnum id) (cs.map some) hex
        = .ok (digest_calculate
            { (⟨d.c, [], [], [], 0⟩ : JHash) with itsPlaintext := cs.flatten } hex).1 := by
      intro cs
      simp only [module_digest_io, NUM2LONG, hf, hashRubyIO_chunks]
    refine ⟨⟨d, ⟨d.c, [], [], [], 0⟩, rfl, by simp [JClass.new, hc d hs], ?_⟩, ?_, ?_⟩
    · rw [io]
      simp [digest_plaintext_eq, JHash.setPlaintext]
    · intro hh
      rw [io]
      simp [module_digest, NUM2LONG, hh, module_digest_body, hf, digest_calculate]
    · intro chunks2 h2
      rw [io, io, h2]

/-- C13 on the sample build and the Adler32 checksum (identifier 1): the
message "The quick brown fox jumps over the lazy dog" read in three chunks
gives the hex digest "5bdc0fda", the same as module_digest on the whole
message. -/
theorem stream_digest_eq_witness :
    fox_chunks.flatten = fox ∧
    module_digest_io sample_build (.fixnum 1) (fox_chunks.map some) true
      = module_digest sample_build [.fixnum 1, .str fox_chunks.flatten] true ∧
    module_digest sample_build [.fixnum 1, .str fox] true
      = .ok [53, 98, 100, 99, 48, 102, 100, 97] :=
  ⟨by decide,
   (stream_digest_eq sample_build 1 fox_chunks true (by decide)
     (by
       intro d hd
       have e : sample_build.switch 1 = some { r := "ADLER32", id := 1, c := sample_Adler32 } := rfl
       rw [e] at hd
       cases hd
       rfl)).2.1 (by decide),
   by decide⟩

end CryptoPP
